import Mathlib

/-!
Shallow embedding of the github-crawler core (query generation, crawler
service, orchestrator loop) together with proofs of the specification
claims.  Definitions mirror the Python source in
src/application/query_generator.py, src/application/crawler_service.py,
src/application/orchestrator.py, src/domain/value_objects.py,
src/domain/entities.py and
src/infrastructure/anti_corruption/github_translator.py.

Modelling conventions: Python dicts keyed by strings become association
lists with dict-style insertion (overwrite in place, append when fresh);
frozensets of (dimension, value) pairs become Finsets; Python float
ratios become exact rationals; the ambient random module becomes an
explicitly threaded stream of natural numbers; the asynchronous GitHub
API becomes a positional script of per-call outcomes, and a query whose
script runs out evaluates to none.
-/

/-! ## Domain entities and value objects (src/domain) -/

/-- Immutable repository entity (entities.py, class Repository). -/
structure Repository where
  id : Int
  full_name : String
  stars : Int
deriving DecidableEq

/-- Immutable search dimension (entities.py, class SearchDimension). -/
structure SearchDimension where
  name : String
  values : List String
  is_primary : Bool
deriving DecidableEq

/-- Immutable query strategy (value_objects.py, class QueryStrategy).
The dimensions field is the dimensions_used dict as an association
list in insertion order. -/
structure QueryStrategy where
  query : String
  dimensions : List (String × String)
  priority : Int
deriving DecidableEq

/-- Immutable coverage statistics (value_objects.py, class CoverageStats):
a dict from dimension name to a dict from value to count. -/
structure CoverageStats where
  dimension_stats : List (String × List (String × Int))
deriving DecidableEq

/-- Dict lookup on an association list (Python d[k] or d.get(k)). -/
def dictGet {β : Type} (l : List (String × β)) (k : String) : Option β :=
  (l.find? (fun p => p.1 == k)).map (fun p => p.2)

/-- Dict assignment d[k] = v on an association list: overwrite in place
when the key is present, append otherwise. -/
def dictInsert (l : List (String × String)) (k v : String) : List (String × String) :=
  if l.any (fun p => p.1 == k) then l.map (fun p => if p.1 == k then (k, v) else p)
  else l ++ [(k, v)]

/-- CoverageStats.update (value_objects.py lines 16-21): copy the stats
and add count at (dimension, value) when both keys are present. -/
def CoverageStats.update (cs : CoverageStats) (dimension value : String) (count : Int) :
    CoverageStats :=
  ⟨cs.dimension_stats.map (fun e =>
    if e.1 == dimension then
      (e.1, e.2.map (fun p => if p.1 == value then (p.1, p.2 + count) else p))
    else e)⟩

/-- Immutable crawler statistics (value_objects.py, class CrawlerStats). -/
structure CrawlerStats where
  total_api_calls : Int := 0
  successful_queries : Int := 0
  failed_queries : Int := 0
  rate_limit_pauses : Int := 0
deriving DecidableEq

/-- CrawlerStats.increment (value_objects.py lines 31-34): return new
stats with each field incremented; a Python call passes keyword
arguments and omitted fields default to an increment of zero, which is
rendered here by passing zero positionally. -/
def CrawlerStats.increment (s : CrawlerStats)
    (total_api_calls successful_queries failed_queries rate_limit_pauses : Int) :
    CrawlerStats :=
  ⟨s.total_api_calls + total_api_calls, s.successful_queries + successful_queries,
   s.failed_queries + failed_queries, s.rate_limit_pauses + rate_limit_pauses⟩

/-! ## Query builder helpers (query_generator.py, class QueryBuilder) -/

/-- QueryBuilder.build_query: join the chosen values with spaces. -/
def QueryBuilder.build_query (dimensions_used : List (String × String)) : String :=
  String.intercalate " " (dimensions_used.map (fun p => p.2))

/-- The stats dict for one dimension, defaulting to empty
(coverage.dimension_stats.get(dim, dict())). -/
def QueryBuilder.statsOf (coverage : CoverageStats) (dimension : String) :
    List (String × Int) :=
  (dictGet coverage.dimension_stats dimension).getD []

/-- stats.get(v, 0): usage count of one value inside a dimension's stats. -/
def QueryBuilder.usageCount (stats : List (String × Int)) (v : String) : Int :=
  (dictGet stats v).getD 0

/-- QueryBuilder.calculate_dimension_coverage (lines 112-138): for every
non-primary dimension, in catalog order, the pair of its name and
total_uses / len(values) (0 when the dimension has no values).  Python
computes the ratio in floating point; it is embedded as an exact
rational. -/
def QueryBuilder.calculate_dimension_coverage (coverage : CoverageStats)
    (dimensions : List SearchDimension) : List (String × ℚ) :=
  (dimensions.filter (fun d => !d.is_primary)).map (fun d =>
    let stats := QueryBuilder.statsOf coverage d.name
    let total_uses : Int := (stats.map (fun p => p.2)).sum
    (d.name, if d.values.length = 0 then 0 else (total_uses : ℚ) / (d.values.length : ℚ)))

/-- QueryBuilder.find_least_used_value (lines 140-153): the value with
minimum usage count; Python min keeps the earliest minimum, so ties
break by catalog order.  Python raises on an empty value list; the
embedding returns the empty string there. -/
def QueryBuilder.find_least_used_value (coverage : CoverageStats) (dimension : String)
    (values : List String) : String :=
  let stats := QueryBuilder.statsOf coverage dimension
  match values with
  | [] => ""
  | v :: vs => vs.foldl (fun best x =>
      if QueryBuilder.usageCount stats x < QueryBuilder.usageCount stats best then x else best) v

/-! ## Generator state (query_generator.py, class QueryGeneratorState) -/

/-- Immutable generator state: catalog, used combination keys (frozenset
of frozensets of pairs, embedded as a Finset of Finsets) and coverage. -/
structure QueryGeneratorState where
  dimensions : List SearchDimension
  used_combinations : Finset (Finset (String × String))
  coverage_stats : CoverageStats
deriving DecidableEq

/-- QueryGeneratorState.with_used_combination (lines 198-209). -/
def QueryGeneratorState.with_used_combination (s : QueryGeneratorState)
    (combo : Finset (String × String)) : QueryGeneratorState :=
  { s with used_combinations := insert combo s.used_combinations }

/-- QueryGeneratorState.with_updated_coverage (lines 211-222). -/
def QueryGeneratorState.with_updated_coverage (s : QueryGeneratorState)
    (dimension value : String) (count : Int) : QueryGeneratorState :=
  { s with coverage_stats := s.coverage_stats.update dimension value count }

/-! ## Randomness.  Python's global random module is embedded as an
explicitly threaded stream of natural numbers: a function giving the
stream values plus the current read position.  Quantifying over all
streams covers every behaviour the ambient generator can exhibit. -/

/-- A deterministic stand-in for the global random generator. -/
structure Rng where
  f : Nat → Nat
  pos : Nat

/-- Draw one natural number and advance the stream. -/
def Rng.next (r : Rng) : Nat × Rng :=
  (r.f r.pos, ⟨r.f, r.pos + 1⟩)

/-- random.sample(l, k): k distinct elements, drawn one at a time by
index into the remaining population. -/
def randomSample : Rng → List SearchDimension → Nat → List SearchDimension × Rng
  | rng, _, 0 => ([], rng)
  | rng, l, k + 1 =>
    if l.length = 0 then ([], rng)
    else
      let (n, rng1) := rng.next
      let i := n % l.length
      let picked := l.getD i ⟨"", [], false⟩
      let (rest, rng2) := randomSample rng1 (l.eraseIdx i) k
      (picked :: rest, rng2)

/-- random.choice(values): one value drawn by index. -/
def randomChoice (rng : Rng) (values : List String) : String × Rng :=
  let (n, rng1) := rng.next
  (values.getD (n % values.length) "", rng1)

/-! ## Query generation (query_generator.py, class QueryGenerator) -/

/-- The shared step 1 of both construction paths: for every primary
dimension, in catalog order, assign its first value into the
dimensions_used dict (dim.values[0]; Python raises on an empty value
list, the embedding uses the empty string there). -/
def primaryDimensionsUsed (dimensions : List SearchDimension) : List (String × String) :=
  dimensions.foldl
    (fun acc d => if d.is_primary then dictInsert acc d.name (d.values.headD "") else acc) []

/-- QueryGenerator._create_targeted_query (lines 300-355). -/
def _create_targeted_query (state : QueryGeneratorState) (target_dim_name : String) :
    Option QueryStrategy × QueryGeneratorState :=
  match state.dimensions.find? (fun d => d.name == target_dim_name) with
  | none => (none, state)
  | some target_dim =>
    let du0 := primaryDimensionsUsed state.dimensions
    let least_used_value :=
      QueryBuilder.find_least_used_value state.coverage_stats target_dim_name target_dim.values
    let du1 := dictInsert du0 target_dim_name least_used_value
    let other_dims :=
      state.dimensions.filter (fun d => !d.is_primary && d.name != target_dim_name)
    let du2 := (other_dims.take 2).foldl
      (fun acc d =>
        dictInsert acc d.name
          (QueryBuilder.find_least_used_value state.coverage_stats d.name d.values)) du1
    let combo_key := du2.toFinset
    if combo_key ∈ state.used_combinations then (none, state)
    else
      (some { query := QueryBuilder.build_query du2, dimensions := du2,
              priority := 10 - (du2.length : Int) },
       state.with_used_combination combo_key)

/-- One random attempt's dict construction (lines 367-382): the primary
assignments, then min(3, number of non-primary dimensions) distinct
dimensions sampled without replacement, each with a randomly chosen
value. -/
def randomDimensionsUsed (state : QueryGeneratorState) (rng : Rng) :
    List (String × String) × Rng :=
  let dimensions_used := primaryDimensionsUsed state.dimensions
  let other_dims := state.dimensions.filter (fun d => !d.is_primary)
  let num_dims_to_select := min 3 other_dims.length
  let (selected_dims, rng1) := randomSample rng other_dims num_dims_to_select
  selected_dims.foldl
    (fun acc d =>
      let (v, r) := randomChoice acc.2 d.values
      (dictInsert acc.1 d.name v, r))
    (dimensions_used, rng1)

/-- The attempt loop of QueryGenerator._create_random_query
(lines 357-396), with the remaining attempt budget explicit. -/
def _random_attempts (state : QueryGeneratorState) :
    Nat → Rng → Option QueryStrategy × QueryGeneratorState × Rng
  | 0, rng => (none, state, rng)
  | k + 1, rng =>
    let (du, rng2) := randomDimensionsUsed state rng
    let combo_key := du.toFinset
    if combo_key ∉ state.used_combinations then
      (some { query := QueryBuilder.build_query du, dimensions := du, priority := 5 },
       state.with_used_combination combo_key, rng2)
    else _random_attempts state k rng2

/-- QueryGenerator._create_random_query: up to 50 random attempts. -/
def _create_random_query (state : QueryGeneratorState) (rng : Rng) :
    Option QueryStrategy × QueryGeneratorState × Rng :=
  _random_attempts state 50 rng

/-- Stable insertion into a list already sorted by key: the new element
goes after every element whose key is less than or equal to its own. -/
def insertSortedByKey {α : Type} (key : α → ℚ) (a : α) : List α → List α
  | [] => [a]
  | b :: l => if key b ≤ key a then b :: insertSortedByKey key a l else a :: b :: l

/-- Python's sorted(l, key) : stable ascending sort by key. -/
def stableSortBy {α : Type} (key : α → ℚ) (l : List α) : List α :=
  l.foldl (fun acc a => insertSortedByKey key a acc) []

/-- The targeted loop of QueryGenerator._generate_single_query
(lines 292-295): try each candidate target in order against the same
input state, returning the first success. -/
def tryTargetedQueries (state : QueryGeneratorState) :
    List String → Option (QueryStrategy × QueryGeneratorState)
  | [] => none
  | t :: ts =>
    match _create_targeted_query state t with
    | (some q, st) => some (q, st)
    | (none, _) => tryTargetedQueries state ts

/-- QueryGenerator._generate_single_query (lines 275-298). -/
def _generate_single_query (state : QueryGeneratorState) (rng : Rng) :
    Option QueryStrategy × QueryGeneratorState × Rng :=
  let coverage := QueryBuilder.calculate_dimension_coverage state.coverage_stats state.dimensions
  let sorted_dims := stableSortBy (fun x => x.2) coverage
  match tryTargetedQueries state (sorted_dims.map (fun x => x.1)) with
  | some (q, st) => (some q, st, rng)
  | none => _create_random_query state rng

/-- QueryGenerator.generate_batch (lines 245-273): up to batch_size
single-query generations threading the state, stopping at the first
failed attempt. -/
def generate_batch :
    QueryGeneratorState → Rng → Nat → List QueryStrategy × QueryGeneratorState × Rng
  | state, rng, 0 => ([], state, rng)
  | state, rng, n + 1 =>
    match _generate_single_query state rng with
    | (some q, st1, rng1) =>
      let (qs, st2, rng2) := generate_batch st1 rng1 n
      (q :: qs, st2, rng2)
    | (none, st1, rng1) => ([], st1, rng1)

/-- QueryGenerator.update_coverage (lines 398-414): credit every
(dimension, value) pair used by the strategy with repos_found. -/
def update_coverage (state : QueryGeneratorState) (strategy : QueryStrategy)
    (repos_found : Int) : QueryGeneratorState :=
  strategy.dimensions.foldl (fun st p => st.with_updated_coverage p.1 p.2 repos_found) state

/-- Per-dimension entry of the coverage report (lines 456-462). -/
structure DimensionCoverageReport where
  values_covered : Nat
  total_values : Nat
  coverage_percentage : ℚ
  repos_per_value : List (String × Int)
deriving DecidableEq

/-- The full coverage report (lines 438-441). -/
structure CoverageReport where
  total_queries : Nat
  dimension_coverage : List (String × DimensionCoverageReport)
deriving DecidableEq

/-- QueryGenerator.get_coverage_report (lines 416-464). -/
def get_coverage_report (state : QueryGeneratorState) : CoverageReport :=
  { total_queries := state.used_combinations.card,
    dimension_coverage := (state.dimensions.filter (fun d => !d.is_primary)).map (fun d =>
      let coverage_data := QueryBuilder.statsOf state.coverage_stats d.name
      let values_with_coverage := (coverage_data.filter (fun p => decide (0 < p.2))).length
      let coverage_pct : ℚ :=
        if d.values.length = 0 then 0
        else (values_with_coverage : ℚ) / (d.values.length : ℚ) * 100
      (d.name,
       { values_covered := values_with_coverage, total_values := d.values.length,
         coverage_percentage := coverage_pct,
         repos_per_value := coverage_data.filter (fun p => decide (0 < p.2)) })) }

/-! ## Configuration (config.py) -/

/-- Immutable configuration, restricted to the fields the embedded core
reads; the sleep durations only pause execution and are omitted. -/
structure Config where
  repos_per_page : Int := 100
  target_total_repos : Nat := 1000000
  max_pages_per_query : Nat := 10
  max_concurrent_queries : Nat := 15
  rate_limit_threshold : Int := 50
  stagnation_threshold : Nat := 5
  coverage_report_interval : Nat := 10
deriving DecidableEq

/-! ## Anti-corruption layer (github_translator.py) -/

/-- Internal representation of rate limit (class GitHubRateLimit). -/
structure GitHubRateLimit where
  remaining : Int
  cost : Int
  reset_at : String
deriving DecidableEq

/-- Internal representation of search results (class GitHubSearchResult). -/
structure GitHubSearchResult where
  repositories : List Repository
  has_next_page : Bool
  end_cursor : Option String
  rate_limit : GitHubRateLimit
deriving DecidableEq

/-- The known access-restriction phrases (is_access_error, lines 75-85),
already lowercase in the source. -/
def error_patterns : List (List Char) :=
  ["ip allow list enabled".data, "must have push access".data,
   "resource not accessible".data, "rate limit exceeded".data, "forbidden".data,
   "saml sso".data, "blocked".data, "private repository".data,
   "requires authentication".data]

/-- Python's substring containment test (pattern in text). -/
def containsSubstring (needle hay : List Char) : Bool :=
  (List.range (hay.length + 1)).any (fun i => needle.isPrefixOf (hay.drop i))

/-- GitHubTranslator.is_access_error (lines 72-87): lowercase the message
and test it against every known phrase. -/
def GitHubTranslator.is_access_error (error_message : String) : Bool :=
  let error_lower := error_message.data.map Char.toLower
  error_patterns.any (fun p => containsSubstring p error_lower)

/-! ## Crawler service (crawler_service.py).  Each call the service makes
to the GitHub API is represented by one entry of a script of outcomes;
running past the end of the script yields none. -/

/-- One API call outcome: a translated successful page, a query error
carrying its message (gql TransportQueryError), or a transient server
error (gql TransportServerError). -/
inductive ApiOutcome where
  | success (result : GitHubSearchResult)
  | queryError (message : String)
  | serverError
deriving DecidableEq

/-- Truth of an outcome being a successful page. -/
def ApiOutcome.isSuccess : ApiOutcome → Bool
  | .success _ => true
  | _ => false

/-- Outcome of one whole query execution: a normal return carrying the
collected repository count, the final pages_processed counter and the
returned stats, or an exception propagating out of the coroutine. -/
inductive QueryResult where
  | ok (repos_collected : Nat) (pages_processed : Nat) (stats : CrawlerStats)
  | raised (message : String)
deriving DecidableEq

/-- The code after the pagination loop of _execute_single_query
(lines 72-75): count one successful query when anything was collected. -/
def finishQuery (repos_collected pages_processed : Nat) (current_stats : CrawlerStats) :
    QueryResult :=
  .ok repos_collected pages_processed
    (if 0 < repos_collected then current_stats.increment 0 1 0 0 else current_stats)

/-- The pagination while-loop of CrawlerService._execute_single_query
(lines 36-70), one recursive step per API call. -/
def queryPageLoop (cfg : Config) :
    List ApiOutcome → Option String → Nat → Nat → CrawlerStats → Option QueryResult
  | script, cursor, repos_collected, pages_processed, current_stats =>
    if pages_processed < cfg.max_pages_per_query then
      match script with
      | [] => none
      | .queryError msg :: _ =>
        if GitHubTranslator.is_access_error msg then
          some (.ok 0 pages_processed (current_stats.increment 0 0 1 0))
        else some (.raised msg)
      | .serverError :: rest =>
        queryPageLoop cfg rest cursor repos_collected pages_processed current_stats
      | .success result :: rest =>
        let stats1 :=
          if result.rate_limit.remaining < cfg.rate_limit_threshold then
            current_stats.increment 0 0 0 1
          else current_stats
        if result.repositories.length = 0 then
          some (finishQuery repos_collected pages_processed stats1)
        else
          let repos1 := repos_collected + result.repositories.length
          let pages1 := pages_processed + 1
          if result.has_next_page then
            queryPageLoop cfg rest result.end_cursor repos1 pages1 stats1
          else some (finishQuery repos1 pages1 stats1)
    else some (finishQuery repos_collected pages_processed current_stats)

/-- CrawlerService._execute_single_query (lines 26-75): one api call is
counted on entry, then the pagination loop runs from cursor none. -/
def _execute_single_query (cfg : Config) (strategy : QueryStrategy)
    (stats : CrawlerStats) (script : List ApiOutcome) : Option QueryResult :=
  queryPageLoop cfg script none 0 0 (stats.increment 1 0 0 0)

/-- The per-result merge step of CrawlerService.execute_batch
(lines 97-109): a tuple result adds its repos and its stats delta
relative to the shared base stats; an exception is skipped. -/
def mergeBatchResult (stats : CrawlerStats) (acc : Nat × CrawlerStats)
    (result : QueryResult) : Nat × CrawlerStats :=
  match result with
  | .ok repos _ updated_stats =>
    (acc.1 + repos,
     acc.2.increment (updated_stats.total_api_calls - stats.total_api_calls)
       (updated_stats.successful_queries - stats.successful_queries)
       (updated_stats.failed_queries - stats.failed_queries)
       (updated_stats.rate_limit_pauses - stats.rate_limit_pauses))
  | .raised _ => acc

/-- The aggregation fold of execute_batch over the gathered results. -/
def aggregateResults (stats : CrawlerStats) (results : List QueryResult) :
    Nat × CrawlerStats :=
  results.foldl (mergeBatchResult stats) (0, stats)

/-- CrawlerService.execute_batch (lines 86-111): run every strategy
against its own script from the same base stats and fold the results in
order.  Concurrency only interleaves I/O; each task computes its pair
independently, so the gathered list is the map below. -/
def execute_batch (cfg : Config) (pairs : List (QueryStrategy × List ApiOutcome))
    (stats : CrawlerStats) : Option (Nat × CrawlerStats) :=
  if pairs.length = 0 then some (0, stats)
  else do
    let results ← pairs.mapM (fun p =>
      match _execute_single_query cfg p.1 stats p.2 with
      | some r => some r
      | none => none)
    some (aggregateResults stats results)

/-! ## Orchestrator (orchestrator.py, CrawlerOrchestrator.run).  One
iteration of the while-loop becomes a step function; the stored-entity
count read at the top of the iteration and the outcome of the batch
execution (which may raise) are supplied by the environment. -/

/-- Why the main loop exits. -/
inductive ExitReason where
  | targetReached
  | spaceExhausted
deriving DecidableEq

/-- The loop-carried variables of CrawlerOrchestrator.run. -/
structure LoopState where
  generator : QueryGeneratorState
  rng : Rng
  stats : CrawlerStats
  batch_count : Nat
  last_count : Nat
  stagnation_counter : Nat

/-- Result of one loop iteration: leave the loop or continue with
updated loop-carried variables. -/
inductive StepResult where
  | exit (reason : ExitReason)
  | cont (ls : LoopState)

/-- Truth of a step result leaving the loop. -/
def StepResult.isExit : StepResult → Bool
  | .exit _ => true
  | .cont _ => false

/-- One iteration of the while-loop of CrawlerOrchestrator.run
(orchestrator.py lines 31-73): check the target against the count read
from storage, update stagnation tracking, generate a batch, exit when it
is empty, otherwise execute it; an exception from execute_batch is
caught and the loop continues with stats and coverage unchanged. -/
def orchestratorStep (cfg : Config) (current_count : Nat)
    (batchExec : List QueryStrategy → CrawlerStats → Except String (Nat × CrawlerStats))
    (ls : LoopState) : StepResult :=
  if cfg.target_total_repos ≤ current_count then .exit .targetReached
  else
    let stagnation :=
      if current_count = ls.last_count then ls.stagnation_counter + 1 else 0
    let (queries, gen1, rng1) :=
      generate_batch ls.generator ls.rng cfg.max_concurrent_queries
    if queries.isEmpty then .exit .spaceExhausted
    else
      let bc := ls.batch_count + 1
      match batchExec queries ls.stats with
      | .ok (batch_repos, stats1) =>
        let gen2 := queries.foldl
          (fun g q => update_coverage g q ((batch_repos / queries.length : Nat) : Int)) gen1
        .cont ⟨gen2, rng1, stats1, bc, current_count, stagnation⟩
      | .error _ => .cont ⟨gen1, rng1, ls.stats, bc, current_count, stagnation⟩

/-- The gathered results that completed without raising, with their
repository counts and returned stats. -/
def okResults : List QueryResult → List (Nat × CrawlerStats)
  | [] => []
  | .ok n _ s :: rest => (n, s) :: okResults rest
  | .raised _ :: rest => okResults rest

/-- The counter stored for one (dimension, value) pair, 0 when absent. -/
def coverageCount (cs : CoverageStats) (d v : String) : Int :=
  QueryBuilder.usageCount (QueryBuilder.statsOf cs d) v

/-- Truth of a (dimension, value) pair being present in the stats. -/
def coverageHasPair (cs : CoverageStats) (d v : String) : Bool :=
  match dictGet cs.dimension_stats d with
  | none => false
  | some m => (dictGet m v).isSome

/-- The value-level update function used by CoverageStats.update. -/
def innerBump (value : String) (count : Int) (p : String × Int) : String × Int :=
  if p.1 == value then (p.1, p.2 + count) else p

/-- The combination key of a strategy: the set of (dimension, value)
pairs it uses, primary included (frozenset(dimensions_used.items())). -/
def comboKey (s : QueryStrategy) : Finset (String × String) :=
  s.dimensions.toFinset

/-- A lineage of generate_batch calls with the given batch sizes,
threading the returned generator forward, concatenating every strategy
returned along the way. -/
def runBatches :
    QueryGeneratorState → Rng → List Nat → List QueryStrategy × QueryGeneratorState × Rng
  | state, rng, [] => ([], state, rng)
  | state, rng, n :: ns =>
    let (qs, st1, rng1) := generate_batch state rng n
    let (rest, st2, rng2) := runBatches st1 rng1 ns
    (qs ++ rest, st2, rng2)

/-- The dict the targeted construction builds, written out flat as the
spec words it: every primary dimension's fixed first value, then the
target dimension's least-used value, then up to two further non-primary
non-target dimensions in catalog order, each with its least-used
value. -/
def specTargetedDimensionsUsed (state : QueryGeneratorState)
    (target_dim : SearchDimension) : List (String × String) :=
  ((state.dimensions.filter (fun d => d.is_primary)).map
    (fun d => (d.name, d.values.headD "")))
  ++ (target_dim.name, QueryBuilder.find_least_used_value state.coverage_stats
        target_dim.name target_dim.values)
    :: (((state.dimensions.filter
          (fun d => !d.is_primary && d.name != target_dim.name)).take 2).map
        (fun d => (d.name,
          QueryBuilder.find_least_used_value state.coverage_stats d.name d.values)))

/-! ## Lemmas about the pagination loop -/

/-- The pagination loop never changes the total_api_calls field: it is
written once on entry to the query, before the loop. -/
theorem queryPageLoop_total_api_calls (cfg : Config) :
    ∀ (script : List ApiOutcome) (cursor : Option String) (repos pages : Nat)
      (stats : CrawlerStats) (r p : Nat) (st : CrawlerStats),
      queryPageLoop cfg script cursor repos pages stats = some (.ok r p st) →
      st.total_api_calls = stats.total_api_calls := by
  intro script
  induction script with
  | nil =>
    intro cursor repos pages stats r p st h
    simp only [queryPageLoop] at h
    split at h
    · exact absurd h (by simp)
    · simp only [finishQuery, Option.some_inj] at h
      cases h
      split
      · simp [CrawlerStats.increment]
      · rfl
  | cons o rest ih =>
    intro cursor repos pages stats r p st h
    cases o with
    | queryError msg =>
      simp only [queryPageLoop] at h
      split at h
      · split at h
        · simp only [Option.some_inj] at h
          cases h
          simp [CrawlerStats.increment]
        · exact absurd h (by simp)
      · simp only [finishQuery, Option.some_inj] at h
        cases h
        split
        · simp [CrawlerStats.increment]
        · rfl
    | serverError =>
      simp only [queryPageLoop] at h
      split at h
      · exact ih _ _ _ _ _ _ _ h
      · simp only [finishQuery, Option.some_inj] at h
        cases h
        split
        · simp [CrawlerStats.increment]
        · rfl
    | success result =>
      simp only [queryPageLoop] at h
      split at h
      · have hpause :
            (if result.rate_limit.remaining < cfg.rate_limit_threshold then
              stats.increment 0 0 0 1 else stats).total_api_calls
              = stats.total_api_calls := by
          split
          · simp [CrawlerStats.increment]
          · rfl
        split at h
        · simp only [finishQuery, Option.some_inj] at h
          cases h
          split
          · simpa [CrawlerStats.increment] using hpause
          · exact hpause
        · split at h
          · have := ih _ _ _ _ _ _ _ h
            rw [this]
            exact hpause
          · simp only [finishQuery, Option.some_inj] at h
            cases h
            split
            · simpa [CrawlerStats.increment] using hpause
            · exact hpause
      · simp only [finishQuery, Option.some_inj] at h
        cases h
        split
        · simp [CrawlerStats.increment]
        · rfl

/-- C10: for every execution of executeQuery that returns, the returned
stats differ from the input stats by exactly one in total_api_calls,
regardless of page count or server-error retries: the counter is
incremented once on entry, never per API call. -/
theorem claim_C10_api_calls_once (cfg : Config) (strategy : QueryStrategy)
    (stats : CrawlerStats) (script : List ApiOutcome) (r p : Nat) (st : CrawlerStats)
    (h : _execute_single_query cfg strategy stats script = some (.ok r p st)) :
    st.total_api_calls = stats.total_api_calls + 1 := by
  have := queryPageLoop_total_api_calls cfg script none 0 0
    (stats.increment 1 0 0 0) r p st h
  simpa [CrawlerStats.increment] using this

/-- Witness for C10: a two-page query with a server-error retry makes
three API calls but the counter moves by exactly one. -/
theorem claim_C10_api_calls_once_witness :
    _execute_single_query {} ⟨"q", [], 0⟩ ⟨7, 0, 0, 0⟩
      [.serverError,
       .success ⟨[⟨1, "a/r1", 5⟩], true, some "c", ⟨100, 1, ""⟩⟩,
       .success ⟨[], false, none, ⟨100, 1, ""⟩⟩]
      = some (.ok 1 1 ⟨8, 1, 0, 0⟩)
    ∧ (8 : Int) = 7 + 1 := by
  refine ⟨by decide, ?_⟩
  have h : _execute_single_query {} ⟨"q", [], 0⟩ ⟨7, 0, 0, 0⟩
      [.serverError,
       .success ⟨[⟨1, "a/r1", 5⟩], true, some "c", ⟨100, 1, ""⟩⟩,
       .success ⟨[], false, none, ⟨100, 1, ""⟩⟩]
      = some (.ok 1 1 ⟨8, 1, 0, 0⟩) := by decide
  exact claim_C10_api_calls_once {} ⟨"q", [], 0⟩ ⟨7, 0, 0, 0⟩ _ 1 1 ⟨8, 1, 0, 0⟩ h

/-- C5: a page request raising a query error whose message matches an
access-restriction phrase aborts the query at once, with zero
repositories and exactly one more failed query (and no successful
query), whatever was already collected on earlier pages of the same
query; at the top level the whole query returns zero repositories. -/
theorem claim_C5_access_error_aborts (cfg : Config) (strategy : QueryStrategy)
    (msg : String) (rest : List ApiOutcome) (cursor : Option String)
    (repos pages : Nat) (stats base : CrawlerStats)
    (hp : pages < cfg.max_pages_per_query)
    (ha : GitHubTranslator.is_access_error msg = true) :
    queryPageLoop cfg (.queryError msg :: rest) cursor repos pages stats
      = some (.ok 0 pages (stats.increment 0 0 1 0))
    ∧ (0 < cfg.max_pages_per_query →
       _execute_single_query cfg strategy base (.queryError msg :: rest)
         = some (.ok 0 0 ((base.increment 1 0 0 0).increment 0 0 1 0))) := by
  constructor
  · simp [queryPageLoop, hp, ha]
  · intro h0
    simp [_execute_single_query, queryPageLoop, h0, ha]

/-- Witness for C5: an access-restricted query that had already
collected 5 repositories over 2 pages still returns zero. -/
theorem claim_C5_access_error_aborts_witness :
    queryPageLoop {} [.queryError "Resource not accessible by integration",
        .success ⟨[], false, none, ⟨100, 1, ""⟩⟩] (some "c") 5 2 ⟨1, 0, 0, 0⟩
      = some (.ok 0 2 ((⟨1, 0, 0, 0⟩ : CrawlerStats).increment 0 0 1 0))
    ∧ _execute_single_query {} ⟨"q", [], 0⟩ {}
        [.queryError "Resource not accessible by integration",
         .success ⟨[], false, none, ⟨100, 1, ""⟩⟩]
      = some (.ok 0 0 ((({} : CrawlerStats).increment 1 0 0 0).increment 0 0 1 0)) := by
  have h := claim_C5_access_error_aborts {} ⟨"q", [], 0⟩
    "Resource not accessible by integration"
    [.success ⟨[], false, none, ⟨100, 1, ""⟩⟩] (some "c") 5 2 ⟨1, 0, 0, 0⟩ {}
    (by decide) (by decide)
  exact ⟨h.1, h.2 (by decide)⟩

/-- On scripts consisting only of successful pages the pagination loop
terminates with a normal result, consuming at most the page budget:
every iteration either stops or increments pages_processed, which the
loop guard bounds by max_pages_per_query. -/
theorem queryPageLoop_success_terminates (cfg : Config) :
    ∀ (script : List ApiOutcome) (cursor : Option String) (repos pages : Nat)
      (stats : CrawlerStats),
      (∀ o ∈ script, o.isSuccess = true) →
      cfg.max_pages_per_query ≤ pages + script.length →
      pages ≤ cfg.max_pages_per_query →
      ∃ r p st, queryPageLoop cfg script cursor repos pages stats = some (.ok r p st)
        ∧ p ≤ cfg.max_pages_per_query := by
  intro script
  induction script with
  | nil =>
    intro cursor repos pages stats _ hlen hple
    simp only [List.length_nil, Nat.add_zero] at hlen
    have hpages : ¬pages < cfg.max_pages_per_query := by omega
    refine ⟨repos, pages,
      if 0 < repos then stats.increment 0 1 0 0 else stats, ?_, hple⟩
    simp [queryPageLoop, hpages, finishQuery]
  | cons o rest ih =>
    intro cursor repos pages stats hsucc hlen hple
    by_cases hpages : pages < cfg.max_pages_per_query
    · cases o with
      | queryError msg =>
        exact absurd (hsucc (ApiOutcome.queryError msg) (by simp))
          (by simp [ApiOutcome.isSuccess])
      | serverError =>
        exact absurd (hsucc ApiOutcome.serverError (by simp))
          (by simp [ApiOutcome.isSuccess])
      | success result =>
        simp only [queryPageLoop, hpages, if_true]
        by_cases hempty : result.repositories.length = 0
        · refine ⟨repos, pages,
            (fun s => if 0 < repos then s.increment 0 1 0 0 else s)
              (if result.rate_limit.remaining < cfg.rate_limit_threshold then
                stats.increment 0 0 0 1 else stats), ?_, hple⟩
          simp [hempty, finishQuery]
        · by_cases hnext : result.has_next_page
          · have hrest : ∀ o ∈ rest, o.isSuccess = true := fun o ho =>
              hsucc o (by simp [ho])
            obtain ⟨r, p, st, heq, hp⟩ := ih result.end_cursor
              (repos + result.repositories.length) (pages + 1)
              (if result.rate_limit.remaining < cfg.rate_limit_threshold then
                stats.increment 0 0 0 1 else stats)
              hrest (by simp at hlen ⊢; omega) (by omega)
            refine ⟨r, p, st, ?_, hp⟩
            simp [hempty, hnext, heq]
          · refine ⟨repos + result.repositories.length, pages + 1,
              (fun s => if 0 < repos + result.repositories.length then
                s.increment 0 1 0 0 else s)
                (if result.rate_limit.remaining < cfg.rate_limit_threshold then
                  stats.increment 0 0 0 1 else stats), ?_, by omega⟩
            simp [hempty, hnext, finishQuery]
    · refine ⟨repos, pages,
        if 0 < repos then stats.increment 0 1 0 0 else stats, ?_, hple⟩
      cases o with
      | queryError msg => simp [queryPageLoop, hpages, finishQuery]
      | serverError => simp [queryPageLoop, hpages, finishQuery]
      | success result => simp [queryPageLoop, hpages, finishQuery]

/-- C6: for successful API responses the pagination loop processes at
most max_pages_per_query pages and terminates; a page with zero entities
stops pagination immediately (whatever has_next_page says and whatever
the rest of the script holds), and a page reporting no next page stops
after being processed regardless of remaining budget. -/
theorem claim_C6_pagination_stops (cfg : Config) (strategy : QueryStrategy)
    (stats : CrawlerStats) (script : List ApiOutcome)
    (res2 : GitHubSearchResult) (rest2 : List ApiOutcome) (cur2 : Option String)
    (repos2 pages2 : Nat) (st2 : CrawlerStats)
    (res3 : GitHubSearchResult) (rest3 : List ApiOutcome) (cur3 : Option String)
    (repos3 pages3 : Nat) (st3 : CrawlerStats) :
    ((∀ o ∈ script, o.isSuccess = true) →
      cfg.max_pages_per_query ≤ script.length →
      ∃ r p st, _execute_single_query cfg strategy stats script = some (.ok r p st)
        ∧ p ≤ cfg.max_pages_per_query)
    ∧ (res2.repositories = [] →
        queryPageLoop cfg (.success res2 :: rest2) cur2 repos2 pages2 st2
          = queryPageLoop cfg [.success res2] cur2 repos2 pages2 st2)
    ∧ (res3.repositories ≠ [] → res3.has_next_page = false →
        queryPageLoop cfg (.success res3 :: rest3) cur3 repos3 pages3 st3
          = queryPageLoop cfg [.success res3] cur3 repos3 pages3 st3) := by
  refine ⟨?_, ?_, ?_⟩
  · intro hsucc hlen
    exact queryPageLoop_success_terminates cfg script none 0 0
      (stats.increment 1 0 0 0) hsucc (by omega) (by omega)
  · intro hempty
    have h0 : res2.repositories.length = 0 := by simp [hempty]
    by_cases hpages : pages2 < cfg.max_pages_per_query
    · simp [queryPageLoop, hpages, h0]
    · simp [queryPageLoop, hpages]
  · intro hne hnext
    have h0 : ¬res3.repositories.length = 0 := by
      simpa [List.length_eq_zero] using hne
    by_cases hpages : pages3 < cfg.max_pages_per_query
    · simp [queryPageLoop, hpages, h0, hnext]
    · simp [queryPageLoop, hpages]

/-- Witness for C6: a two-page budget on an all-success script of length
two; a zero-entity page claiming a next page; and a final page with
three entities and no next page. -/
theorem claim_C6_pagination_stops_witness :
    ((∀ o ∈ [ApiOutcome.success ⟨[⟨1, "a/r1", 5⟩], true, some "c", ⟨100, 1, ""⟩⟩,
              ApiOutcome.success ⟨[⟨2, "a/r2", 5⟩], true, some "d", ⟨100, 1, ""⟩⟩],
        o.isSuccess = true) →
      ({ max_pages_per_query := 2 } : Config).max_pages_per_query ≤ 2 →
      ∃ r p st,
        _execute_single_query { max_pages_per_query := 2 } ⟨"q", [], 0⟩ {}
            [.success ⟨[⟨1, "a/r1", 5⟩], true, some "c", ⟨100, 1, ""⟩⟩,
             .success ⟨[⟨2, "a/r2", 5⟩], true, some "d", ⟨100, 1, ""⟩⟩]
          = some (.ok r p st)
        ∧ p ≤ ({ max_pages_per_query := 2 } : Config).max_pages_per_query)
    ∧ queryPageLoop {} [.success ⟨[], true, some "c", ⟨100, 1, ""⟩⟩,
          .success ⟨[⟨9, "a/r9", 5⟩], true, some "d", ⟨100, 1, ""⟩⟩] none 0 0 {}
        = queryPageLoop {} [.success ⟨[], true, some "c", ⟨100, 1, ""⟩⟩] none 0 0 {}
    ∧ queryPageLoop {} [.success ⟨[⟨1, "a/r1", 5⟩, ⟨2, "a/r2", 5⟩, ⟨3, "a/r3", 5⟩],
          false, none, ⟨100, 1, ""⟩⟩,
          .success ⟨[⟨9, "a/r9", 5⟩], true, some "d", ⟨100, 1, ""⟩⟩] none 0 0 {}
        = queryPageLoop {} [.success ⟨[⟨1, "a/r1", 5⟩, ⟨2, "a/r2", 5⟩, ⟨3, "a/r3", 5⟩],
            false, none, ⟨100, 1, ""⟩⟩] none 0 0 {} := by
  have h := claim_C6_pagination_stops { max_pages_per_query := 2 } ⟨"q", [], 0⟩ {}
    [.success ⟨[⟨1, "a/r1", 5⟩], true, some "c", ⟨100, 1, ""⟩⟩,
     .success ⟨[⟨2, "a/r2", 5⟩], true, some "d", ⟨100, 1, ""⟩⟩]
    ⟨[], true, some "c", ⟨100, 1, ""⟩⟩
    [.success ⟨[⟨9, "a/r9", 5⟩], true, some "d", ⟨100, 1, ""⟩⟩] none 0 0 {}
    ⟨[⟨1, "a/r1", 5⟩, ⟨2, "a/r2", 5⟩, ⟨3, "a/r3", 5⟩], false, none, ⟨100, 1, ""⟩⟩
    [.success ⟨[⟨9, "a/r9", 5⟩], true, some "d", ⟨100, 1, ""⟩⟩] none 0 0 {}
  have h2 := claim_C6_pagination_stops {} ⟨"q", [], 0⟩ {}
    []
    ⟨[], true, some "c", ⟨100, 1, ""⟩⟩
    [.success ⟨[⟨9, "a/r9", 5⟩], true, some "d", ⟨100, 1, ""⟩⟩] none 0 0 {}
    ⟨[⟨1, "a/r1", 5⟩, ⟨2, "a/r2", 5⟩, ⟨3, "a/r3", 5⟩], false, none, ⟨100, 1, ""⟩⟩
    [.success ⟨[⟨9, "a/r9", 5⟩], true, some "d", ⟨100, 1, ""⟩⟩] none 0 0 {}
  exact ⟨h.1, h2.2.1 (by decide), h2.2.2 (by decide) (by decide)⟩

/-! ## Batch aggregation (execute_batch) -/


/-- Two increments compose into one increment of the sums. -/
theorem increment_increment (s : CrawlerStats) (a b c d a' b' c' d' : Int) :
    (s.increment a b c d).increment a' b' c' d'
      = s.increment (a + a') (b + b') (c + c') (d + d') := by
  simp [CrawlerStats.increment, add_assoc]

/-- Closed form of the execute_batch aggregation fold from any
accumulator: total repos add up and the stats accumulator receives the
elementwise sum of the completed deltas; raised results contribute
nothing. -/
theorem foldl_mergeBatchResult (stats : CrawlerStats) :
    ∀ (results : List QueryResult) (acc : Nat × CrawlerStats),
      results.foldl (mergeBatchResult stats) acc
        = (acc.1 + ((okResults results).map (fun r => r.1)).sum,
           acc.2.increment
             (((okResults results).map
               (fun r => r.2.total_api_calls - stats.total_api_calls)).sum)
             (((okResults results).map
               (fun r => r.2.successful_queries - stats.successful_queries)).sum)
             (((okResults results).map
               (fun r => r.2.failed_queries - stats.failed_queries)).sum)
             (((okResults results).map
               (fun r => r.2.rate_limit_pauses - stats.rate_limit_pauses)).sum)) := by
  intro results
  induction results with
  | nil =>
    intro acc
    simp [okResults, CrawlerStats.increment]
  | cons r rest ih =>
    intro acc
    cases r with
    | ok n p s =>
      rw [List.foldl_cons, ih]
      simp only [mergeBatchResult, okResults, List.map_cons, List.sum_cons,
        increment_increment]
      rw [Nat.add_assoc]
    | raised m =>
      rw [List.foldl_cons, ih]
      simp [mergeBatchResult, okResults]

/-- C4: executeBatch sums the repository counts of the queries that
completed without raising and adds the elementwise sum of their stats
deltas to the base stats; a raised result is skipped without disturbing
the others; and on the stub where Q1 hits an access restriction and Q2
yields pages of 3 then 0 entities the aggregate is 3 repositories, one
failed query and one successful query. -/
theorem claim_C4_batch_aggregation (stats : CrawlerStats)
    (results pre post : List QueryResult) (m : String) :
    (aggregateResults stats results).1 = ((okResults results).map (fun r => r.1)).sum
    ∧ (aggregateResults stats results).2 = stats.increment
        (((okResults results).map
          (fun r => r.2.total_api_calls - stats.total_api_calls)).sum)
        (((okResults results).map
          (fun r => r.2.successful_queries - stats.successful_queries)).sum)
        (((okResults results).map
          (fun r => r.2.failed_queries - stats.failed_queries)).sum)
        (((okResults results).map
          (fun r => r.2.rate_limit_pauses - stats.rate_limit_pauses)).sum)
    ∧ aggregateResults stats (pre ++ .raised m :: post)
        = aggregateResults stats (pre ++ post)
    ∧ execute_batch {}
        [(⟨"q1", [], 0⟩, [.queryError "Request Forbidden by administrative rules"]),
         (⟨"q2", [], 0⟩,
          [.success ⟨[⟨1, "a/r1", 5⟩, ⟨2, "a/r2", 5⟩, ⟨3, "a/r3", 5⟩],
             true, some "c1", ⟨100, 1, ""⟩⟩,
           .success ⟨[], true, some "c2", ⟨100, 1, ""⟩⟩])] {}
        = some (3, ⟨2, 1, 1, 0⟩) := by
  have h := foldl_mergeBatchResult stats results (0, stats)
  refine ⟨?_, ?_, ?_, by decide⟩
  · rw [aggregateResults, h]
    simp
  · rw [aggregateResults, h]
  · simp [aggregateResults, List.foldl_append, mergeBatchResult]

/-- C7: one orchestrator iteration leaves the loop exactly when the
count read at the start of the iteration has reached the target or the
generated batch is empty; since the batch executor is universally
quantified, the exit decision is independent of the batch outcome, so a
batch that raises never exits the loop and the target is compared only
between batches. -/
theorem claim_C7_loop_exit_conditions (cfg : Config) (current_count : Nat)
    (be be' : List QueryStrategy → CrawlerStats → Except String (Nat × CrawlerStats))
    (ls : LoopState) :
    ((∃ r, orchestratorStep cfg current_count be ls = .exit r) ↔
      (cfg.target_total_repos ≤ current_count ∨
       (generate_batch ls.generator ls.rng cfg.max_concurrent_queries).1 = []))
    ∧ (orchestratorStep cfg current_count be ls).isExit
        = (orchestratorStep cfg current_count be' ls).isExit := by
  by_cases htarget : cfg.target_total_repos ≤ current_count
  · constructor
    · simp [orchestratorStep, htarget]
    · simp [orchestratorStep, htarget]
  · rcases hgb : generate_batch ls.generator ls.rng cfg.max_concurrent_queries
      with ⟨queries, gen1, rng1⟩
    cases queries with
    | nil =>
      constructor
      · simp [orchestratorStep, htarget, hgb]
      · simp [orchestratorStep, htarget, hgb]
    | cons q qs =>
      have hstep : ∀ f, (orchestratorStep cfg current_count f ls).isExit = false := by
        intro f
        cases hbe : f (q :: qs) ls.stats with
        | ok v =>
          rcases v with ⟨batch_repos, stats1⟩
          simp [orchestratorStep, htarget, hgb, hbe, StepResult.isExit]
        | error e =>
          simp [orchestratorStep, htarget, hgb, hbe, StepResult.isExit]
      constructor
      · constructor
        · intro ⟨r, hr⟩
          have := hstep be
          rw [hr] at this
          exact absurd this (by simp [StepResult.isExit])
        · intro hcases
          rcases hcases with h | h
          · exact absurd h htarget
          · exact absurd h (by simp)
      · rw [hstep be, hstep be']

/-! ## Commutation of coverage updates -/

/-- Value-level coverage additions inside one dimension commute. -/
theorem coverage_inner_comm (m : List (String × Int)) (v1 v2 : String) (c1 c2 : Int) :
    (m.map (fun p => if p.1 == v2 then (p.1, p.2 + c2) else p)).map
        (fun p => if p.1 == v1 then (p.1, p.2 + c1) else p)
      = (m.map (fun p => if p.1 == v1 then (p.1, p.2 + c1) else p)).map
        (fun p => if p.1 == v2 then (p.1, p.2 + c2) else p) := by
  rw [List.map_map, List.map_map]
  apply List.map_congr_left
  intro p _
  by_cases h1 : p.1 == v1 <;> by_cases h2 : p.1 == v2 <;>
    simp [Function.comp, h1, h2] <;> omega

/-- Two elementary CoverageStats updates commute: each is pure addition
at one (dimension, value) key. -/
theorem CoverageStats.update_comm (cs : CoverageStats) (d1 v1 : String) (c1 : Int)
    (d2 v2 : String) (c2 : Int) :
    (cs.update d1 v1 c1).update d2 v2 c2 = (cs.update d2 v2 c2).update d1 v1 c1 := by
  show CoverageStats.mk _ = CoverageStats.mk _
  congr 1
  simp only [CoverageStats.update, List.map_map]
  apply List.map_congr_left
  intro e _
  by_cases h1 : e.1 == d1 <;> by_cases h2 : e.1 == d2
  · simp only [Function.comp_apply, h1, h2, if_true]
    exact congrArg (fun m => (e.1, m)) (coverage_inner_comm e.2 v2 v1 c2 c1)
  · simp [Function.comp, h1, h2]
  · simp [Function.comp, h1, h2]
  · simp [Function.comp, h1, h2]

/-- Elementary updates commute at the level of generator states. -/
theorem with_updated_coverage_comm (s : QueryGeneratorState) (d1 v1 : String) (c1 : Int)
    (d2 v2 : String) (c2 : Int) :
    (s.with_updated_coverage d1 v1 c1).with_updated_coverage d2 v2 c2
      = (s.with_updated_coverage d2 v2 c2).with_updated_coverage d1 v1 c1 := by
  simp [QueryGeneratorState.with_updated_coverage, CoverageStats.update_comm]

/-- A single elementary update moves through a fold of elementary
updates. -/
theorem foldl_with_updated_coverage_single (l : List (String × String)) (c : Int)
    (d v : String) (c' : Int) :
    ∀ s : QueryGeneratorState,
      (l.foldl (fun st q => st.with_updated_coverage q.1 q.2 c) s).with_updated_coverage
          d v c'
        = l.foldl (fun st q => st.with_updated_coverage q.1 q.2 c)
            (s.with_updated_coverage d v c') := by
  induction l with
  | nil => intro s; rfl
  | cons p l ih =>
    intro s
    simp only [List.foldl_cons]
    rw [ih, with_updated_coverage_comm]

/-- Folds of elementary updates over two pair lists commute. -/
theorem foldl_with_updated_coverage_comm (lA lB : List (String × String)) (a b : Int) :
    ∀ s : QueryGeneratorState,
      lB.foldl (fun st q => st.with_updated_coverage q.1 q.2 b)
          (lA.foldl (fun st q => st.with_updated_coverage q.1 q.2 a) s)
        = lA.foldl (fun st q => st.with_updated_coverage q.1 q.2 a)
            (lB.foldl (fun st q => st.with_updated_coverage q.1 q.2 b) s) := by
  induction lA with
  | nil => intro s; rfl
  | cons p lA ih =>
    intro s
    simp only [List.foldl_cons]
    rw [ih (s.with_updated_coverage p.1 p.2 a),
      foldl_with_updated_coverage_single lB b p.1 p.2 a]

/-- C8: update_coverage commutes across strategies: crediting strategy A
with a repos and then strategy B with b repos yields the same generator
state as the reverse order, because each update is pure addition per
(dimension, value) key. -/
theorem claim_C8_update_coverage_commutes (state : QueryGeneratorState)
    (A B : QueryStrategy) (a b : Int) :
    update_coverage (update_coverage state A a) B b
      = update_coverage (update_coverage state B b) A a := by
  unfold update_coverage
  exact foldl_with_updated_coverage_comm A.dimensions B.dimensions a b state

/-! ## Observations on coverage statistics -/



/-- find? by key commutes with a map that preserves keys. -/
theorem find?_map_key {β : Type} (g : String × β → String × β)
    (hg : ∀ p, (g p).1 = p.1) (k : String) :
    ∀ l : List (String × β),
      (l.map g).find? (fun p => p.1 == k) = (l.find? (fun p => p.1 == k)).map g := by
  intro l
  induction l with
  | nil => rfl
  | cons x l ih =>
    simp only [List.map_cons, List.find?]
    rw [hg x]
    by_cases hx : x.1 == k
    · simp [hx]
    · simp only [Bool.not_eq_true] at hx
      simp [hx, ih]


/-- CoverageStats.update rewritten through innerBump. -/
theorem update_eq_map (cs : CoverageStats) (d v : String) (c : Int) :
    cs.update d v c
      = ⟨cs.dimension_stats.map (fun e =>
          if e.1 == d then (e.1, e.2.map (innerBump v c)) else e)⟩ := rfl

/-- The per-dimension stats of the updated dimension are the old stats
with the value-level bump mapped over them. -/
theorem statsOf_update_self (cs : CoverageStats) (d v : String) (c : Int) :
    QueryBuilder.statsOf (cs.update d v c) d
      = (QueryBuilder.statsOf cs d).map (innerBump v c) := by
  rw [update_eq_map]
  unfold QueryBuilder.statsOf dictGet
  rw [find?_map_key (fun e => if e.1 == d then (e.1, e.2.map (innerBump v c)) else e)
    (by intro p; by_cases h : p.1 == d <;> simp [h]) d cs.dimension_stats]
  cases hfind : cs.dimension_stats.find? (fun p => p.1 == d) with
  | none => rfl
  | some e =>
    have he : e.1 = d := by
      have := List.find?_some hfind
      simpa using this
    simp [he]

/-- The per-dimension stats of any other dimension are untouched. -/
theorem statsOf_update_ne (cs : CoverageStats) (d v : String) (c : Int) (d' : String)
    (h : d' ≠ d) :
    QueryBuilder.statsOf (cs.update d v c) d' = QueryBuilder.statsOf cs d' := by
  rw [update_eq_map]
  unfold QueryBuilder.statsOf dictGet
  rw [find?_map_key (fun e => if e.1 == d then (e.1, e.2.map (innerBump v c)) else e)
    (by intro p; by_cases hp : p.1 == d <;> simp [hp]) d' cs.dimension_stats]
  cases hfind : cs.dimension_stats.find? (fun p => p.1 == d') with
  | none => rfl
  | some e =>
    have he : e.1 = d' := by
      have := List.find?_some hfind
      simpa using this
    have hne : ¬e.1 = d := by
      rw [he]
      exact h
    simp [hne]

/-- Value-level: bumping value v adds c to its count exactly when the
value is present. -/
theorem usageCount_map_self (m : List (String × Int)) (v : String) (c : Int) :
    QueryBuilder.usageCount (m.map (innerBump v c)) v
      = QueryBuilder.usageCount m v + (if (dictGet m v).isSome then c else 0) := by
  unfold QueryBuilder.usageCount dictGet
  rw [find?_map_key (innerBump v c)
    (by intro p; unfold innerBump; by_cases h : p.1 == v <;> simp [h]) v m]
  cases hfind : m.find? (fun p => p.1 == v) with
  | none => simp
  | some e =>
    have he : e.1 = v := by
      have := List.find?_some hfind
      simpa using this
    simp [innerBump, he]

/-- Value-level: bumping value v leaves every other value's count
alone. -/
theorem usageCount_map_ne (m : List (String × Int)) (v : String) (c : Int) (v' : String)
    (h : v' ≠ v) :
    QueryBuilder.usageCount (m.map (innerBump v c)) v' = QueryBuilder.usageCount m v' := by
  unfold QueryBuilder.usageCount dictGet
  rw [find?_map_key (innerBump v c)
    (by intro p; unfold innerBump; by_cases hp : p.1 == v <;> simp [hp]) v' m]
  cases hfind : m.find? (fun p => p.1 == v') with
  | none => simp
  | some e =>
    have he : e.1 = v' := by
      have := List.find?_some hfind
      simpa using this
    have hne : ¬e.1 = v := by
      rw [he]
      exact h
    simp [innerBump, hne]

/-- Dimension-level lookup after an update of the same dimension. -/
theorem dictGet_update_self (cs : CoverageStats) (d v : String) (c : Int) :
    dictGet (cs.update d v c).dimension_stats d
      = (dictGet cs.dimension_stats d).map (fun m => m.map (innerBump v c)) := by
  rw [update_eq_map]
  unfold dictGet
  rw [find?_map_key (fun e => if e.1 == d then (e.1, e.2.map (innerBump v c)) else e)
    (by intro p; by_cases hp : p.1 == d <;> simp [hp]) d cs.dimension_stats]
  cases hfind : cs.dimension_stats.find? (fun p => p.1 == d) with
  | none => rfl
  | some e =>
    have he : e.1 = d := by
      have := List.find?_some hfind
      simpa using this
    simp [he]

/-- Dimension-level lookup after an update of another dimension. -/
theorem dictGet_update_ne (cs : CoverageStats) (d v : String) (c : Int) (d' : String)
    (h : d' ≠ d) :
    dictGet (cs.update d v c).dimension_stats d' = dictGet cs.dimension_stats d' := by
  rw [update_eq_map]
  unfold dictGet
  rw [find?_map_key (fun e => if e.1 == d then (e.1, e.2.map (innerBump v c)) else e)
    (by intro p; by_cases hp : p.1 == d <;> simp [hp]) d' cs.dimension_stats]
  cases hfind : cs.dimension_stats.find? (fun p => p.1 == d') with
  | none => rfl
  | some e =>
    have he : e.1 = d' := by
      have := List.find?_some hfind
      simpa using this
    have hne : ¬e.1 = d := by
      rw [he]
      exact h
    simp [hne]

/-- Value-level presence is untouched by the bump map. -/
theorem dictGet_innerBump_isSome (m : List (String × Int)) (v : String) (c : Int)
    (v' : String) :
    (dictGet (m.map (innerBump v c)) v').isSome = (dictGet m v').isSome := by
  unfold dictGet
  rw [find?_map_key (innerBump v c)
    (by intro p; unfold innerBump; by_cases hp : p.1 == v <;> simp [hp]) v' m]
  cases m.find? (fun p => p.1 == v') <;> simp

/-- The counter at the updated pair grows by the count exactly when the
pair is present in the stats. -/
theorem coverageCount_update_self (cs : CoverageStats) (d v : String) (c : Int) :
    coverageCount (cs.update d v c) d v
      = coverageCount cs d v + (if coverageHasPair cs d v = true then c else 0) := by
  unfold coverageCount
  rw [statsOf_update_self, usageCount_map_self]
  congr 1
  unfold coverageHasPair QueryBuilder.statsOf
  cases hfind : dictGet cs.dimension_stats d with
  | none => simp [hfind, dictGet]
  | some m => simp [hfind]

/-- The counter at any other pair is untouched by an update. -/
theorem coverageCount_update_ne (cs : CoverageStats) (d v : String) (c : Int)
    (d' v' : String) (h : ¬(d' = d ∧ v' = v)) :
    coverageCount (cs.update d v c) d' v' = coverageCount cs d' v' := by
  unfold coverageCount
  by_cases hd : d' = d
  · subst hd
    have hv : v' ≠ v := by
      intro hv
      exact h ⟨rfl, hv⟩
    rw [statsOf_update_self, usageCount_map_ne _ _ _ _ hv]
  · rw [statsOf_update_ne _ _ _ _ _ hd]

/-- An update never adds or removes keys: pair presence is preserved. -/
theorem coverageHasPair_update (cs : CoverageStats) (d v : String) (c : Int)
    (d' v' : String) :
    coverageHasPair (cs.update d v c) d' v' = coverageHasPair cs d' v' := by
  unfold coverageHasPair
  by_cases hd : d' = d
  · subst hd
    rw [dictGet_update_self]
    cases hfind : dictGet cs.dimension_stats d' with
    | none => rfl
    | some m =>
      simp only [Option.map_some]
      exact dictGet_innerBump_isSome m v c v'
  · rw [dictGet_update_ne _ _ _ _ _ hd]

/-- Under distinct keys, any element whose key matches a successful
find? by that key is the found element. -/
theorem find?_key_unique {β : Type} (k : String) :
    ∀ (l : List (String × β)) (e x : String × β),
      (l.map Prod.fst).Nodup → l.find? (fun p => p.1 == k) = some e →
      x ∈ l → x.1 = k → x = e := by
  intro l
  induction l with
  | nil =>
    intro e x _ hfind hx _
    simp at hx
  | cons y l ih =>
    intro e x hnodup hfind hx hxk
    simp only [List.map_cons, List.nodup_cons] at hnodup
    by_cases hy : (y.1 == k) = true
    · simp only [List.find?, hy, Option.some_inj] at hfind
      cases hfind
      rcases List.mem_cons.mp hx with hxy | hxl
      · exact hxy
      · exfalso
        apply hnodup.1
        rw [beq_iff_eq] at hy
        rw [hy, ← hxk]
        exact List.mem_map_of_mem Prod.fst hxl
    · have hy' : (y.1 == k) = false := by
        simpa using hy
      simp only [List.find?, hy'] at hfind
      rcases List.mem_cons.mp hx with hxy | hxl
      · exfalso
        apply hy
        rw [beq_iff_eq, ← hxy]
        exact hxk
      · exact ih e x hnodup.2 hfind hxl hxk

/-- Updating a (dimension, value) pair that is absent from the stats is
a structural no-op, provided dimension keys are distinct (always true
for dict-derived stats). -/
theorem CoverageStats.update_noop (cs : CoverageStats) (d v : String) (c : Int)
    (hnodup : (cs.dimension_stats.map Prod.fst).Nodup)
    (hmiss : coverageHasPair cs d v = false) :
    cs.update d v c = cs := by
  rw [update_eq_map]
  show CoverageStats.mk _ = CoverageStats.mk cs.dimension_stats
  congr 1
  cases hf : cs.dimension_stats.find? (fun p => p.1 == d) with
  | none =>
    have hall := List.find?_eq_none.mp hf
    conv_rhs => rw [← List.map_id cs.dimension_stats]
    apply List.map_congr_left
    intro e he
    have : ¬(e.1 == d) = true := hall e he
    simp [this]
  | some e =>
    have hinner : e.2.find? (fun q => q.1 == v) = none := by
      unfold coverageHasPair dictGet at hmiss
      rw [hf] at hmiss
      simpa using hmiss
    have hmap : e.2.map (innerBump v c) = e.2 := by
      have hall := List.find?_eq_none.mp hinner
      conv_rhs => rw [← List.map_id e.2]
      apply List.map_congr_left
      intro q hq
      have : ¬(q.1 == v) = true := hall q hq
      simp [innerBump, this]
    conv_rhs => rw [← List.map_id cs.dimension_stats]
    apply List.map_congr_left
    intro x hxm
    by_cases hx : (x.1 == d) = true
    · have hxe : x = e := find?_key_unique d cs.dimension_stats e x hnodup hf hxm
        (by rwa [beq_iff_eq] at hx)
      subst hxe
      simp [hx, hmap]
    · simp [hx]

/-- A fold of state-level coverage updates only changes the
coverage_stats field, by the corresponding fold of stats-level
updates. -/
theorem foldl_with_updated_coverage_fields (l : List (String × String)) (c : Int) :
    ∀ s : QueryGeneratorState,
      l.foldl (fun st p => st.with_updated_coverage p.1 p.2 c) s
        = ⟨s.dimensions, s.used_combinations,
           l.foldl (fun cs q => cs.update q.1 q.2 c) s.coverage_stats⟩ := by
  induction l with
  | nil => intro s; rfl
  | cons p l ih =>
    intro s
    simp only [List.foldl_cons]
    rw [ih]
    rfl

/-- A fold of updates whose dimensions all differ from a given pair's
dimension leaves that pair's counter alone. -/
theorem coverageCount_foldl_untouched (c : Int) (d v : String) :
    ∀ (l : List (String × String)) (cs : CoverageStats),
      (∀ q ∈ l, q.1 ≠ d) →
      coverageCount (l.foldl (fun cs q => cs.update q.1 q.2 c) cs) d v
        = coverageCount cs d v := by
  intro l
  induction l with
  | nil => intro cs _; rfl
  | cons q l ih =>
    intro cs hne
    simp only [List.foldl_cons]
    rw [ih _ (fun q' hq' => hne q' (by simp [hq']))]
    exact coverageCount_update_ne cs q.1 q.2 c d v
      (fun hc => hne q (by simp) hc.1.symm)

/-- A fold of updates over pairwise-distinct dimensions adds the count
to each member pair's counter exactly when the pair is present. -/
theorem coverageCount_foldl_mem (c : Int) :
    ∀ (l : List (String × String)) (cs : CoverageStats) (p : String × String),
      (l.map Prod.fst).Nodup → p ∈ l →
      coverageCount (l.foldl (fun cs q => cs.update q.1 q.2 c) cs) p.1 p.2
        = coverageCount cs p.1 p.2
          + (if coverageHasPair cs p.1 p.2 = true then c else 0) := by
  intro l
  induction l with
  | nil =>
    intro cs p _ hp
    simp at hp
  | cons q l ih =>
    intro cs p hnodup hp
    simp only [List.map_cons, List.nodup_cons] at hnodup
    simp only [List.foldl_cons]
    rcases List.mem_cons.mp hp with hpq | hpl
    · subst hpq
      have huntouched : ∀ q' ∈ l, q'.1 ≠ p.1 := by
        intro q' hq' hc
        apply hnodup.1
        rw [← hc]
        exact List.mem_map_of_mem Prod.fst hq'
      rw [coverageCount_foldl_untouched c p.1 p.2 l _ huntouched]
      exact coverageCount_update_self cs p.1 p.2 c
    · have hne : p.1 ≠ q.1 := by
        intro hc
        apply hnodup.1
        rw [← hc]
        exact List.mem_map_of_mem Prod.fst hpl
      rw [ih _ p hnodup.2 hpl, coverageCount_update_ne cs q.1 q.2 c p.1 p.2
        (fun hc => hne hc.1), coverageHasPair_update cs q.1 q.2 c p.1 p.2]

/-- Updating a dimension that no non-primary catalog dimension bears
leaves the coverage report unchanged: the report reads only non-primary
dimensions. -/
theorem get_coverage_report_update (state : QueryGeneratorState) (d v : String) (c : Int)
    (h : ∀ dim ∈ state.dimensions, dim.is_primary = false → dim.name ≠ d) :
    get_coverage_report (state.with_updated_coverage d v c) = get_coverage_report state := by
  unfold get_coverage_report QueryGeneratorState.with_updated_coverage
  congr 1
  apply List.map_congr_left
  intro dim hdim
  have hmem := List.mem_filter.mp hdim
  have hprim : dim.is_primary = false := by
    simpa using hmem.2
  have hname : dim.name ≠ d := h dim hmem.1 hprim
  simp only [statsOf_update_ne state.coverage_stats d v c dim.name hname]

/-- Updating such a dimension leaves every coverage ratio unchanged as
well: ratios are computed only for non-primary dimensions. -/
theorem calculate_dimension_coverage_update (state : QueryGeneratorState)
    (d v : String) (c : Int)
    (h : ∀ dim ∈ state.dimensions, dim.is_primary = false → dim.name ≠ d) :
    QueryBuilder.calculate_dimension_coverage
        (state.coverage_stats.update d v c) state.dimensions
      = QueryBuilder.calculate_dimension_coverage state.coverage_stats state.dimensions := by
  unfold QueryBuilder.calculate_dimension_coverage
  apply List.map_congr_left
  intro dim hdim
  have hmem := List.mem_filter.mp hdim
  have hprim : dim.is_primary = false := by
    simpa using hmem.2
  have hname : dim.name ≠ d := h dim hmem.1 hprim
  simp only [statsOf_update_ne _ d v c dim.name hname]

/-- C9: update_coverage adds repos_found to the counter of every pair in
the strategy's dimensions uniformly (when the pair is present in the
stats); an update for an absent pair is a silent structural no-op; and
an update keyed by a dimension that only primary catalog entries bear
changes neither the coverage report nor the dimension coverage ratios,
which both exclude primary dimensions. -/
theorem claim_C9_update_coverage_semantics (state : QueryGeneratorState)
    (strategy : QueryStrategy) (c : Int) (d2 v2 : String) (c2 : Int)
    (d3 v3 : String) (c3 : Int)
    (hnodupS : (strategy.dimensions.map Prod.fst).Nodup)
    (hnodupC : (state.coverage_stats.dimension_stats.map Prod.fst).Nodup)
    (hprimary : ∀ dim ∈ state.dimensions, dim.is_primary = false → dim.name ≠ d3) :
    (∀ p ∈ strategy.dimensions,
      coverageCount (update_coverage state strategy c).coverage_stats p.1 p.2
        = coverageCount state.coverage_stats p.1 p.2
          + (if coverageHasPair state.coverage_stats p.1 p.2 = true then c else 0))
    ∧ (coverageHasPair state.coverage_stats d2 v2 = false →
        state.coverage_stats.update d2 v2 c2 = state.coverage_stats)
    ∧ get_coverage_report (state.with_updated_coverage d3 v3 c3)
        = get_coverage_report state
    ∧ QueryBuilder.calculate_dimension_coverage
        (state.with_updated_coverage d3 v3 c3).coverage_stats state.dimensions
      = QueryBuilder.calculate_dimension_coverage state.coverage_stats
          state.dimensions := by
  refine ⟨?_, ?_, ?_, ?_⟩
  · intro p hp
    unfold update_coverage
    rw [foldl_with_updated_coverage_fields]
    exact coverageCount_foldl_mem c strategy.dimensions state.coverage_stats p hnodupS hp
  · intro hmiss
    exact CoverageStats.update_noop state.coverage_stats d2 v2 c2 hnodupC hmiss
  · exact get_coverage_report_update state d3 v3 c3 hprimary
  · exact calculate_dimension_coverage_update state d3 v3 c3 hprimary

/-- Witness for C9: a three-dimension catalog with zeroed coverage, a
strategy using the primary base dimension and stars, an absent pair
(stars, missing), and an update keyed by the primary dimension name. -/
theorem claim_C9_update_coverage_semantics_witness :
    (∀ p ∈ [("base", "is:public"), ("stars", "s0")],
      coverageCount (update_coverage
          ⟨[⟨"base", ["is:public"], true⟩, ⟨"stars", ["s0", "s1"], false⟩,
            ⟨"size", ["z0"], false⟩], ∅,
           ⟨[("base", [("is:public", 0)]), ("stars", [("s0", 0), ("s1", 0)]),
             ("size", [("z0", 0)])]⟩⟩
          ⟨"is:public s0", [("base", "is:public"), ("stars", "s0")], 8⟩ 4).coverage_stats
          p.1 p.2
        = coverageCount
            ⟨[("base", [("is:public", 0)]), ("stars", [("s0", 0), ("s1", 0)]),
              ("size", [("z0", 0)])]⟩ p.1 p.2
          + (if coverageHasPair
                ⟨[("base", [("is:public", 0)]), ("stars", [("s0", 0), ("s1", 0)]),
                  ("size", [("z0", 0)])]⟩ p.1 p.2 = true then 4 else 0))
    ∧ (coverageHasPair
          ⟨[("base", [("is:public", 0)]), ("stars", [("s0", 0), ("s1", 0)]),
            ("size", [("z0", 0)])]⟩ "stars" "missing" = false →
        CoverageStats.update
            ⟨[("base", [("is:public", 0)]), ("stars", [("s0", 0), ("s1", 0)]),
              ("size", [("z0", 0)])]⟩ "stars" "missing" 7
          = ⟨[("base", [("is:public", 0)]), ("stars", [("s0", 0), ("s1", 0)]),
              ("size", [("z0", 0)])]⟩)
    ∧ get_coverage_report (QueryGeneratorState.with_updated_coverage
          ⟨[⟨"base", ["is:public"], true⟩, ⟨"stars", ["s0", "s1"], false⟩,
            ⟨"size", ["z0"], false⟩], ∅,
           ⟨[("base", [("is:public", 0)]), ("stars", [("s0", 0), ("s1", 0)]),
             ("size", [("z0", 0)])]⟩⟩ "base" "is:public" 9)
        = get_coverage_report
            ⟨[⟨"base", ["is:public"], true⟩, ⟨"stars", ["s0", "s1"], false⟩,
              ⟨"size", ["z0"], false⟩], ∅,
             ⟨[("base", [("is:public", 0)]), ("stars", [("s0", 0), ("s1", 0)]),
               ("size", [("z0", 0)])]⟩⟩ := by
  have h := claim_C9_update_coverage_semantics
    ⟨[⟨"base", ["is:public"], true⟩, ⟨"stars", ["s0", "s1"], false⟩,
      ⟨"size", ["z0"], false⟩], ∅,
     ⟨[("base", [("is:public", 0)]), ("stars", [("s0", 0), ("s1", 0)]),
       ("size", [("z0", 0)])]⟩⟩
    ⟨"is:public s0", [("base", "is:public"), ("stars", "s0")], 8⟩ 4
    "stars" "missing" 7 "base" "is:public" 9
    (by decide) (by decide) (by decide)
  exact ⟨h.1, fun _ => h.2.1 (by decide), h.2.2.1⟩

/-! ## The generate_batch loop -/

/-- A batch never holds more strategies than the requested size. -/
theorem generate_batch_length_le (n : Nat) :
    ∀ (state : QueryGeneratorState) (rng : Rng),
      (generate_batch state rng n).1.length ≤ n := by
  induction n with
  | zero =>
    intro state rng
    simp [generate_batch]
  | succ n ih =>
    intro state rng
    rcases h1 : _generate_single_query state rng with ⟨oq, st1, rng1⟩
    cases oq with
    | some q =>
      rcases h2 : generate_batch st1 rng1 n with ⟨qs, st2, rng2⟩
      have hle : qs.length ≤ n := by
        have := ih st1 rng1
        rwa [h2] at this
      simp only [generate_batch, h1, h2]
      simpa using hle
    | none =>
      simp [generate_batch, h1]


/-- Step equation: a successful single-query attempt prepends its
strategy and threads the updated state into the remaining budget. -/
theorem generate_batch_succ_some (state : QueryGeneratorState) (rng : Rng) (n : Nat)
    (q : QueryStrategy) (st1 : QueryGeneratorState) (rng1 : Rng)
    (h : _generate_single_query state rng = (some q, st1, rng1)) :
    generate_batch state rng (n + 1)
      = (q :: (generate_batch st1 rng1 n).1,
         (generate_batch st1 rng1 n).2.1, (generate_batch st1 rng1 n).2.2) := by
  rcases h2 : generate_batch st1 rng1 n with ⟨qs, st2, rng2⟩
  simp [generate_batch, h, h2]

/-- Step equation: a failed single-query attempt ends the batch at
once. -/
theorem generate_batch_succ_none (state : QueryGeneratorState) (rng : Rng) (n : Nat)
    (st1 : QueryGeneratorState) (rng1 : Rng)
    (h : _generate_single_query state rng = (none, st1, rng1)) :
    generate_batch state rng (n + 1) = ([], st1, rng1) := by
  simp [generate_batch, h]

/-- Once a batch came back short, a larger budget changes nothing: the
generation run stalls at the first failed attempt. -/
theorem generate_batch_stall (n : Nat) :
    ∀ (state : QueryGeneratorState) (rng : Rng),
      (generate_batch state rng n).1.length < n →
      generate_batch state rng (n + 1) = generate_batch state rng n := by
  induction n with
  | zero =>
    intro state rng h
    simp [generate_batch] at h
  | succ n ih =>
    intro state rng h
    rcases h1 : _generate_single_query state rng with ⟨oq, st1, rng1⟩
    cases oq with
    | some q =>
      have hlen : (generate_batch st1 rng1 n).1.length < n := by
        rw [generate_batch_succ_some state rng n q st1 rng1 h1] at h
        simpa using h
      rw [generate_batch_succ_some state rng (n + 1) q st1 rng1 h1,
        generate_batch_succ_some state rng n q st1 rng1 h1, ih st1 rng1 hlen]
    | none =>
      rw [generate_batch_succ_none state rng (n + 1) st1 rng1 h1,
        generate_batch_succ_none state rng n st1 rng1 h1]

/-- The stall extends to every larger budget. -/
theorem generate_batch_stall_ge (n : Nat) (state : QueryGeneratorState) (rng : Rng)
    (h : (generate_batch state rng n).1.length < n) :
    ∀ k, generate_batch state rng (n + k) = generate_batch state rng n := by
  intro k
  induction k with
  | zero => rfl
  | succ k ihk =>
    have hlt : (generate_batch state rng (n + k)).1.length < n + k := by
      rw [ihk]
      omega
    rw [show n + (k + 1) = (n + k) + 1 by omega,
      generate_batch_stall (n + k) state rng hlt, ihk]

/-- A full batch extends by exactly one further single-query attempt
threaded from the returned state. -/
theorem generate_batch_extend (n : Nat) :
    ∀ (state : QueryGeneratorState) (rng : Rng) (qs : List QueryStrategy)
      (st' : QueryGeneratorState) (rng' : Rng),
      generate_batch state rng n = (qs, st', rng') → qs.length = n →
      generate_batch state rng (n + 1)
        = match _generate_single_query st' rng' with
          | (some q, a, b) => (qs ++ [q], a, b)
          | (none, a, b) => (qs, a, b) := by
  induction n with
  | zero =>
    intro state rng qs st' rng' heq hlen
    have hqs : qs = [] := List.length_eq_zero.mp hlen
    subst hqs
    have h1 : state = st' ∧ rng = rng' := by
      simp only [generate_batch] at heq
      cases heq
      exact ⟨rfl, rfl⟩
    obtain ⟨rfl, rfl⟩ := h1
    rcases hs : _generate_single_query state rng with ⟨oq, a, b⟩
    cases oq with
    | some q => simp [generate_batch, hs]
    | none => simp [generate_batch, hs]
  | succ n ih =>
    intro state rng qs st' rng' heq hlen
    rcases h1 : _generate_single_query state rng with ⟨oq, st1, rng1⟩
    cases oq with
    | some q =>
      rcases h2 : generate_batch st1 rng1 n with ⟨qs0, st2, rng2⟩
      have heq' : (q :: qs0, st2, rng2) = (qs, st', rng') := by
        rw [← heq, generate_batch_succ_some state rng n q st1 rng1 h1, h2]
      obtain ⟨rfl, rfl, rfl⟩ : qs = q :: qs0 ∧ st' = st2 ∧ rng' = rng2 := by
        cases heq'
        exact ⟨rfl, rfl, rfl⟩
      have hlen0 : qs0.length = n := by simpa using hlen
      have ihe := ih st1 rng1 qs0 st' rng' h2 hlen0
      rw [generate_batch_succ_some state rng (n + 1) q st1 rng1 h1, ihe]
      rcases hs : _generate_single_query st' rng' with ⟨oq', a, b⟩
      cases oq' with
      | some q' => simp [hs]
      | none => simp [hs]
    | none =>
      exfalso
      have heq' : (([] : List QueryStrategy), st1, rng1) = (qs, st', rng') := by
        rw [← heq, generate_batch_succ_none state rng n st1 rng1 h1]
      have : qs = [] := by
        cases heq'
        rfl
      rw [this] at hlen
      simp at hlen

/-- C3: generate_batch returns at most batch_size strategies together
with a new generator; it stops early, and permanently, at the first
failed single-query attempt (a larger budget returns the same short
batch); and a full batch of size n is continued at budget n+1 by
exactly one further single-query generation threaded from the returned
state. -/
theorem claim_C3_generate_batch_contract (state : QueryGeneratorState) (rng : Rng)
    (n m : Nat) (qs : List QueryStrategy) (st' : QueryGeneratorState) (rng' : Rng) :
    (generate_batch state rng n).1.length ≤ n
    ∧ ((generate_batch state rng n).1.length < n → n ≤ m →
        generate_batch state rng m = generate_batch state rng n)
    ∧ (generate_batch state rng n = (qs, st', rng') → qs.length = n →
        generate_batch state rng (n + 1)
          = match _generate_single_query st' rng' with
            | (some q, a, b) => (qs ++ [q], a, b)
            | (none, a, b) => (qs, a, b)) := by
  refine ⟨generate_batch_length_le n state rng, ?_, ?_⟩
  · intro h hm
    have := generate_batch_stall_ge n state rng h (m - n)
    rwa [Nat.add_sub_cancel' hm] at this
  · intro heq hlen
    exact generate_batch_extend n state rng qs st' rng' heq hlen

/-- Witness for C3: an empty catalog whose empty combination key is
already used can generate nothing, so batches are empty at any budget;
a budget of zero is trivially full and extends by one attempt. -/
theorem claim_C3_generate_batch_contract_witness :
    (generate_batch ⟨[], {(∅ : Finset (String × String))}, ⟨[]⟩⟩ ⟨fun _ => 0, 0⟩
        1).1.length ≤ 1
    ∧ generate_batch ⟨[], {(∅ : Finset (String × String))}, ⟨[]⟩⟩ ⟨fun _ => 0, 0⟩ 2
        = generate_batch ⟨[], {(∅ : Finset (String × String))}, ⟨[]⟩⟩ ⟨fun _ => 0, 0⟩ 1
    ∧ generate_batch ⟨[], {(∅ : Finset (String × String))}, ⟨[]⟩⟩ ⟨fun _ => 0, 0⟩ 1
        = match _generate_single_query
            ⟨[], {(∅ : Finset (String × String))}, ⟨[]⟩⟩ ⟨fun _ => 0, 0⟩ with
          | (some q, a, b) => ([] ++ [q], a, b)
          | (none, a, b) => ([], a, b) := by
  have h1 := claim_C3_generate_batch_contract
    ⟨[], {(∅ : Finset (String × String))}, ⟨[]⟩⟩ ⟨fun _ => 0, 0⟩ 1 2 []
    ⟨[], {(∅ : Finset (String × String))}, ⟨[]⟩⟩ ⟨fun _ => 0, 0⟩
  have h0 := claim_C3_generate_batch_contract
    ⟨[], {(∅ : Finset (String × String))}, ⟨[]⟩⟩ ⟨fun _ => 0, 0⟩ 0 0 []
    ⟨[], {(∅ : Finset (String × String))}, ⟨[]⟩⟩ ⟨fun _ => 0, 0⟩
  exact ⟨h1.1, h1.2.1 (by decide) (by decide), h0.2.2 rfl rfl⟩

/-! ## The deduplication invariant -/


/-- A successful targeted construction returns an unused key and marks
exactly that key used. -/
theorem create_targeted_some (state : QueryGeneratorState) (t : String)
    (q : QueryStrategy) (st' : QueryGeneratorState)
    (h : _create_targeted_query state t = (some q, st')) :
    comboKey q ∉ state.used_combinations
    ∧ st'.used_combinations = insert (comboKey q) state.used_combinations := by
  unfold _create_targeted_query at h
  cases hfind : state.dimensions.find? (fun d => d.name == t) with
  | none =>
    simp only [hfind] at h
    simp at h
  | some target_dim =>
    simp only [hfind] at h
    split at h
    · simp at h
    · rename_i hnotin
      injection h with h1 h2
      injection h1 with h1
      subst h1
      subst h2
      exact ⟨hnotin, rfl⟩

/-- A failed targeted construction returns the state unchanged. -/
theorem create_targeted_none (state : QueryGeneratorState) (t : String)
    (st' : QueryGeneratorState)
    (h : _create_targeted_query state t = (none, st')) : st' = state := by
  unfold _create_targeted_query at h
  cases hfind : state.dimensions.find? (fun d => d.name == t) with
  | none =>
    simp only [hfind] at h
    injection h with h1 h2
    exact h2.symm
  | some target_dim =>
    simp only [hfind] at h
    split at h
    · injection h with h1 h2
      exact h2.symm
    · simp at h

/-- A successful random attempt returns an unused key and marks exactly
that key used. -/
theorem random_attempts_some (state : QueryGeneratorState) :
    ∀ (k : Nat) (rng : Rng) (q : QueryStrategy) (st' : QueryGeneratorState) (rng' : Rng),
      _random_attempts state k rng = (some q, st', rng') →
      comboKey q ∉ state.used_combinations
      ∧ st'.used_combinations = insert (comboKey q) state.used_combinations := by
  intro k
  induction k with
  | zero =>
    intro rng q st' rng' h
    simp [_random_attempts] at h
  | succ k ih =>
    intro rng q st' rng' h
    rcases hdu : randomDimensionsUsed state rng with ⟨du, rng2⟩
    simp only [_random_attempts, hdu] at h
    split at h
    · rename_i hnotin
      injection h with h1 h2
      injection h1 with h1
      injection h2 with h2 h3
      subst h1
      subst h2
      exact ⟨hnotin, rfl⟩
    · exact ih rng2 q st' rng' h

/-- A failed random attempt run returns the state unchanged. -/
theorem random_attempts_none (state : QueryGeneratorState) :
    ∀ (k : Nat) (rng : Rng) (st' : QueryGeneratorState) (rng' : Rng),
      _random_attempts state k rng = (none, st', rng') → st' = state := by
  intro k
  induction k with
  | zero =>
    intro rng st' rng' h
    injection h with h1 h2
    injection h2 with h2 h3
    exact h2.symm
  | succ k ih =>
    intro rng st' rng' h
    rcases hdu : randomDimensionsUsed state rng with ⟨du, rng2⟩
    simp only [_random_attempts, hdu] at h
    split at h
    · simp at h
    · exact ih rng2 st' rng' h

/-- A successful targeted loop pass returns an unused key and marks
exactly that key used. -/
theorem tryTargetedQueries_some (state : QueryGeneratorState) :
    ∀ (ts : List String) (q : QueryStrategy) (st' : QueryGeneratorState),
      tryTargetedQueries state ts = some (q, st') →
      comboKey q ∉ state.used_combinations
      ∧ st'.used_combinations = insert (comboKey q) state.used_combinations := by
  intro ts
  induction ts with
  | nil =>
    intro q st' h
    simp [tryTargetedQueries] at h
  | cons t ts ih =>
    intro q st' h
    rcases ht : _create_targeted_query state t with ⟨oq, st0⟩
    cases oq with
    | some q0 =>
      simp only [tryTargetedQueries, ht, Option.some_inj] at h
      cases h
      exact create_targeted_some state t _ _ ht
    | none =>
      simp only [tryTargetedQueries, ht] at h
      exact ih q st' h

/-- A successful single-query generation returns an unused key and
marks exactly that key used. -/
theorem generate_single_some (state : QueryGeneratorState) (rng : Rng)
    (q : QueryStrategy) (st' : QueryGeneratorState) (rng' : Rng)
    (h : _generate_single_query state rng = (some q, st', rng')) :
    comboKey q ∉ state.used_combinations
    ∧ st'.used_combinations = insert (comboKey q) state.used_combinations := by
  simp only [_generate_single_query] at h
  cases htry : tryTargetedQueries state
      ((stableSortBy (fun x => x.2)
        (QueryBuilder.calculate_dimension_coverage state.coverage_stats
          state.dimensions)).map (fun x => x.1)) with
  | some pair =>
    rcases pair with ⟨q0, st0⟩
    simp only [htry] at h
    injection h with h1 h2
    injection h1 with h1
    injection h2 with h2 h3
    subst h1
    subst h2
    exact tryTargetedQueries_some state _ _ _ htry
  | none =>
    simp only [htry] at h
    exact random_attempts_some state 50 rng q st' rng' h

/-- A failed single-query generation returns the state unchanged. -/
theorem generate_single_none (state : QueryGeneratorState) (rng : Rng)
    (st' : QueryGeneratorState) (rng' : Rng)
    (h : _generate_single_query state rng = (none, st', rng')) : st' = state := by
  simp only [_generate_single_query] at h
  cases htry : tryTargetedQueries state
      ((stableSortBy (fun x => x.2)
        (QueryBuilder.calculate_dimension_coverage state.coverage_stats
          state.dimensions)).map (fun x => x.1)) with
  | some pair =>
    rcases pair with ⟨q0, st0⟩
    simp only [htry] at h
    simp at h
  | none =>
    simp only [htry] at h
    exact random_attempts_none state 50 rng st' rng' h

/-- Batch-level dedup invariant: the used set only grows, every
returned strategy's key is fresh with respect to the starting state and
recorded in the final state, and keys within a batch are pairwise
distinct. -/
theorem generate_batch_dedup (n : Nat) :
    ∀ (state : QueryGeneratorState) (rng : Rng),
      state.used_combinations ⊆ (generate_batch state rng n).2.1.used_combinations
      ∧ (∀ q ∈ (generate_batch state rng n).1,
          comboKey q ∉ state.used_combinations)
      ∧ (∀ q ∈ (generate_batch state rng n).1,
          comboKey q ∈ (generate_batch state rng n).2.1.used_combinations)
      ∧ (generate_batch state rng n).1.Pairwise (fun a b => comboKey a ≠ comboKey b) := by
  induction n with
  | zero =>
    intro state rng
    refine ⟨fun x hx => hx, ?_, ?_, ?_⟩ <;> simp [generate_batch]
  | succ n ih =>
    intro state rng
    rcases h1 : _generate_single_query state rng with ⟨oq, st1, rng1⟩
    cases oq with
    | some q =>
      obtain ⟨hfresh, hins⟩ := generate_single_some state rng q st1 rng1 h1
      obtain ⟨hsub, hnotin, hmem, hpw⟩ := ih st1 rng1
      have hstep := generate_batch_succ_some state rng n q st1 rng1 h1
      rw [hstep]
      have hsub1 : state.used_combinations ⊆ st1.used_combinations := by
        rw [hins]
        exact Finset.subset_insert _ _
      refine ⟨fun x hx => hsub (hsub1 hx), ?_, ?_, ?_⟩
      · intro x hx
        rcases List.mem_cons.mp hx with hxq | hxl
        · subst hxq
          exact hfresh
        · intro hc
          exact hnotin x hxl (hsub1 hc)
      · intro x hx
        rcases List.mem_cons.mp hx with hxq | hxl
        · subst hxq
          apply hsub
          rw [hins]
          exact Finset.mem_insert_self _ _
        · exact hmem x hxl
      · refine List.pairwise_cons.mpr ⟨?_, hpw⟩
        intro b hb hc
        apply hnotin b hb
        rw [← hc, hins]
        exact Finset.mem_insert_self _ _
    | none =>
      have hst : st1 = state := generate_single_none state rng st1 rng1 h1
      have hstep := generate_batch_succ_none state rng n st1 rng1 h1
      rw [hstep, hst]
      refine ⟨fun x hx => hx, ?_, ?_, ?_⟩ <;> simp


/-- Lineage-level dedup invariant, by composing the batch invariant. -/
theorem runBatches_dedup (sizes : List Nat) :
    ∀ (state : QueryGeneratorState) (rng : Rng),
      state.used_combinations ⊆ (runBatches state rng sizes).2.1.used_combinations
      ∧ (∀ q ∈ (runBatches state rng sizes).1,
          comboKey q ∉ state.used_combinations)
      ∧ (∀ q ∈ (runBatches state rng sizes).1,
          comboKey q ∈ (runBatches state rng sizes).2.1.used_combinations)
      ∧ (runBatches state rng sizes).1.Pairwise (fun a b => comboKey a ≠ comboKey b) := by
  induction sizes with
  | nil =>
    intro state rng
    refine ⟨fun x hx => hx, ?_, ?_, ?_⟩ <;> simp [runBatches]
  | cons n ns ih =>
    intro state rng
    rcases h1 : generate_batch state rng n with ⟨qs, st1, rng1⟩
    rcases h2 : runBatches st1 rng1 ns with ⟨rest, st2, rng2⟩
    obtain ⟨bsub, bnotin, bmem, bpw⟩ := generate_batch_dedup n state rng
    rw [h1] at bsub bnotin bmem bpw
    obtain ⟨rsub, rnotin, rmem, rpw⟩ := ih st1 rng1
    rw [h2] at rsub rnotin rmem rpw
    have hrun : runBatches state rng (n :: ns) = (qs ++ rest, st2, rng2) := by
      simp [runBatches, h1, h2]
    rw [hrun]
    refine ⟨fun x hx => rsub (bsub hx), ?_, ?_, ?_⟩
    · intro x hx
      rcases List.mem_append.mp hx with hxl | hxr
      · exact bnotin x hxl
      · intro hc
        exact rnotin x hxr (bsub hc)
    · intro x hx
      rcases List.mem_append.mp hx with hxl | hxr
      · exact rsub (bmem x hxl)
      · exact rmem x hxr
    · refine List.pairwise_append.mpr ⟨bpw, rpw, ?_⟩
      intro a ha b hb hc
      apply rnotin b hb
      rw [← hc]
      exact bmem a ha

/-- C1: across any lineage of generate_batch calls threading the
returned generator forward, no two returned strategies share a
combination key; both construction paths check the key against
used_combinations before returning and record it in the returned
state's used_combinations. -/
theorem claim_C1_dedup_invariant (state : QueryGeneratorState) (rng : Rng)
    (sizes : List Nat) (stateT : QueryGeneratorState) (t : String) (qT : QueryStrategy)
    (stateR : QueryGeneratorState) (rngR : Rng) (qR : QueryStrategy) :
    (runBatches state rng sizes).1.Pairwise (fun a b => comboKey a ≠ comboKey b)
    ∧ ((_create_targeted_query stateT t).1 = some qT →
        comboKey qT ∉ stateT.used_combinations
        ∧ (_create_targeted_query stateT t).2.used_combinations
            = insert (comboKey qT) stateT.used_combinations)
    ∧ ((_create_random_query stateR rngR).1 = some qR →
        comboKey qR ∉ stateR.used_combinations
        ∧ (_create_random_query stateR rngR).2.1.used_combinations
            = insert (comboKey qR) stateR.used_combinations) := by
  refine ⟨(runBatches_dedup sizes state rng).2.2.2, ?_, ?_⟩
  · intro hT
    rcases hT' : _create_targeted_query stateT t with ⟨oq, st'⟩
    rw [hT'] at hT
    have hoq : oq = some qT := hT
    subst hoq
    exact create_targeted_some stateT t qT st' hT'
  · intro hR
    rcases hR' : _create_random_query stateR rngR with ⟨oq, st', rng'⟩
    rw [hR'] at hR
    have hoq : oq = some qR := hR
    subst hoq
    exact random_attempts_some stateR 50 rngR qR st' rng' hR'

/-- Witness for C1: on a three-dimension catalog with nothing used yet,
both the targeted and the random construction succeed and record their
keys; the lineage conjunct is applied to the same concrete state. -/
theorem claim_C1_dedup_invariant_witness :
    (runBatches
        ⟨[⟨"base", ["is:public"], true⟩, ⟨"stars", ["s0", "s1"], false⟩,
          ⟨"size", ["z0"], false⟩], ∅,
         ⟨[("base", [("is:public", 0)]), ("stars", [("s0", 0), ("s1", 0)]),
           ("size", [("z0", 0)])]⟩⟩ ⟨fun _ => 0, 0⟩ [2, 1]).1.Pairwise
      (fun a b => comboKey a ≠ comboKey b)
    ∧ comboKey ⟨"is:public s0 z0",
        [("base", "is:public"), ("stars", "s0"), ("size", "z0")], 7⟩
      ∉ (⟨[⟨"base", ["is:public"], true⟩, ⟨"stars", ["s0", "s1"], false⟩,
           ⟨"size", ["z0"], false⟩], ∅,
          ⟨[("base", [("is:public", 0)]), ("stars", [("s0", 0), ("s1", 0)]),
            ("size", [("z0", 0)])]⟩⟩ : QueryGeneratorState).used_combinations
    ∧ comboKey ⟨"is:public s0 z0",
        [("base", "is:public"), ("stars", "s0"), ("size", "z0")], 5⟩
      ∉ (⟨[⟨"base", ["is:public"], true⟩, ⟨"stars", ["s0", "s1"], false⟩,
           ⟨"size", ["z0"], false⟩], ∅,
          ⟨[("base", [("is:public", 0)]), ("stars", [("s0", 0), ("s1", 0)]),
            ("size", [("z0", 0)])]⟩⟩ : QueryGeneratorState).used_combinations := by
  have h := claim_C1_dedup_invariant
    ⟨[⟨"base", ["is:public"], true⟩, ⟨"stars", ["s0", "s1"], false⟩,
      ⟨"size", ["z0"], false⟩], ∅,
     ⟨[("base", [("is:public", 0)]), ("stars", [("s0", 0), ("s1", 0)]),
       ("size", [("z0", 0)])]⟩⟩ ⟨fun _ => 0, 0⟩ [2, 1]
    ⟨[⟨"base", ["is:public"], true⟩, ⟨"stars", ["s0", "s1"], false⟩,
      ⟨"size", ["z0"], false⟩], ∅,
     ⟨[("base", [("is:public", 0)]), ("stars", [("s0", 0), ("s1", 0)]),
       ("size", [("z0", 0)])]⟩⟩ "stars"
    ⟨"is:public s0 z0", [("base", "is:public"), ("stars", "s0"), ("size", "z0")], 7⟩
    ⟨[⟨"base", ["is:public"], true⟩, ⟨"stars", ["s0", "s1"], false⟩,
      ⟨"size", ["z0"], false⟩], ∅,
     ⟨[("base", [("is:public", 0)]), ("stars", [("s0", 0), ("s1", 0)]),
       ("size", [("z0", 0)])]⟩⟩ ⟨fun _ => 0, 0⟩
    ⟨"is:public s0 z0", [("base", "is:public"), ("stars", "s0"), ("size", "z0")], 5⟩
  exact ⟨h.1, (h.2.1 (by decide)).1, (h.2.2 (by decide)).1⟩

/-! ## The stable sort used for candidate ordering -/

/-- Inserting produces a permutation of consing. -/
theorem insertSortedByKey_perm {α : Type} (key : α → ℚ) (a : α) :
    ∀ l : List α, (insertSortedByKey key a l).Perm (a :: l) := by
  intro l
  induction l with
  | nil => exact List.Perm.refl _
  | cons b l ih =>
    unfold insertSortedByKey
    split
    · exact (ih.cons b).trans (List.Perm.swap a b l)
    · exact List.Perm.refl _

/-- The sort is a permutation of its input. -/
theorem stableSortBy_perm_aux {α : Type} (key : α → ℚ) :
    ∀ (l acc : List α),
      (l.foldl (fun acc a => insertSortedByKey key a acc) acc).Perm (acc ++ l) := by
  intro l
  induction l with
  | nil =>
    intro acc
    simp
  | cons a l ih =>
    intro acc
    simp only [List.foldl_cons]
    refine (ih (insertSortedByKey key a acc)).trans ?_
    refine (List.Perm.append_right l (insertSortedByKey_perm key a acc)).trans ?_
    exact List.perm_middle.symm.trans (List.Perm.refl _) |>.symm.symm
      |>.trans (List.Perm.refl _)

/-- Python's stable sorted returns a permutation of the input. -/
theorem stableSortBy_perm {α : Type} (key : α → ℚ) (l : List α) :
    (stableSortBy key l).Perm l := by
  have := stableSortBy_perm_aux key l []
  simpa [stableSortBy] using this

/-- Inserting into a key-sorted list keeps it key-sorted. -/
theorem insertSortedByKey_sorted {α : Type} (key : α → ℚ) (a : α) :
    ∀ l : List α, l.Pairwise (fun x y => key x ≤ key y) →
      (insertSortedByKey key a l).Pairwise (fun x y => key x ≤ key y) := by
  intro l
  induction l with
  | nil =>
    intro _
    simp [insertSortedByKey]
  | cons b l ih =>
    intro h
    rcases List.pairwise_cons.mp h with ⟨hb, hl⟩
    unfold insertSortedByKey
    split
    · rename_i hba
      refine List.pairwise_cons.mpr ⟨?_, ih hl⟩
      intro x hx
      rcases List.mem_cons.mp ((insertSortedByKey_perm key a l).mem_iff.mp hx)
        with hxa | hxl
      · rw [hxa]
        exact hba
      · exact hb x hxl
    · rename_i hba
      have hab : key a ≤ key b := le_of_not_le hba
      refine List.pairwise_cons.mpr ⟨?_, h⟩
      intro x hx
      rcases List.mem_cons.mp hx with hxb | hxl
      · rw [hxb]
        exact hab
      · exact le_trans hab (hb x hxl)

/-- The sort produces a key-sorted list. -/
theorem stableSortBy_sorted_aux {α : Type} (key : α → ℚ) :
    ∀ (l acc : List α), acc.Pairwise (fun x y => key x ≤ key y) →
      (l.foldl (fun acc a => insertSortedByKey key a acc) acc).Pairwise
        (fun x y => key x ≤ key y) := by
  intro l
  induction l with
  | nil =>
    intro acc h
    exact h
  | cons a l ih =>
    intro acc h
    simp only [List.foldl_cons]
    exact ih _ (insertSortedByKey_sorted key a acc h)

/-- Python's stable sorted output is ascending in the key. -/
theorem stableSortBy_sorted {α : Type} (key : α → ℚ) (l : List α) :
    (stableSortBy key l).Pairwise (fun x y => key x ≤ key y) := by
  exact stableSortBy_sorted_aux key l [] (by simp)

/-- Inserting into a key-sorted list places the new element after every
element of equal key and changes no other key class. -/
theorem insertSortedByKey_filter {α : Type} (key : α → ℚ) (a : α) :
    ∀ l : List α, l.Pairwise (fun x y => key x ≤ key y) → ∀ q : ℚ,
      (insertSortedByKey key a l).filter (fun x => decide (key x = q))
        = if key a = q then l.filter (fun x => decide (key x = q)) ++ [a]
          else l.filter (fun x => decide (key x = q)) := by
  intro l
  induction l with
  | nil =>
    intro _ q
    by_cases hq : key a = q <;> simp [insertSortedByKey, hq]
  | cons b l ih =>
    intro h q
    rcases List.pairwise_cons.mp h with ⟨hb, hl⟩
    unfold insertSortedByKey
    split
    · rename_i hba
      by_cases hbq : key b = q <;> by_cases haq : key a = q <;>
        simp [List.filter_cons, hbq, haq, ih hl q]
    · rename_i hba
      have hab : key a < key b := lt_of_not_le hba
      by_cases haq : key a = q
      · have hempty : (b :: l).filter (fun x => decide (key x = q)) = [] := by
          rw [List.filter_eq_nil_iff]
          intro x hx
          simp only [decide_eq_true_eq]
          intro hxq
          have hbx : key b ≤ key x := by
            rcases List.mem_cons.mp hx with hxb | hxl
            · rw [hxb]
            · exact hb x hxl
          rw [hxq, ← haq] at hbx
          exact absurd hbx (not_le.mpr hab)
        simp [List.filter_cons, haq, hempty]
      · simp [List.filter_cons, haq]

/-- The sort is stable: each key class keeps its original order. -/
theorem stableSortBy_filter_aux {α : Type} (key : α → ℚ) (q : ℚ) :
    ∀ (l acc : List α), acc.Pairwise (fun x y => key x ≤ key y) →
      (l.foldl (fun acc a => insertSortedByKey key a acc) acc).filter
          (fun x => decide (key x = q))
        = acc.filter (fun x => decide (key x = q))
          ++ l.filter (fun x => decide (key x = q)) := by
  intro l
  induction l with
  | nil =>
    intro acc _
    simp
  | cons a l ih =>
    intro acc h
    simp only [List.foldl_cons]
    rw [ih _ (insertSortedByKey_sorted key a acc h),
      insertSortedByKey_filter key a acc h q]
    by_cases haq : key a = q <;> simp [List.filter_cons, haq]

/-- Python's stable sorted preserves the relative order inside every
key class. -/
theorem stableSortBy_filter {α : Type} (key : α → ℚ) (l : List α) (q : ℚ) :
    (stableSortBy key l).filter (fun x => decide (key x = q))
      = l.filter (fun x => decide (key x = q)) := by
  have := stableSortBy_filter_aux key q l [] (by simp)
  simpa [stableSortBy] using this

/-! ## Characterization of the targeted construction -/

/-- A guarded fold is a fold over the filtered list. -/
theorem foldl_ite_filter {α β : Type} (p : α → Bool) (g : β → α → β) :
    ∀ (l : List α) (init : β),
      l.foldl (fun acc a => if p a then g acc a else acc) init
        = (l.filter p).foldl g init := by
  intro l
  induction l with
  | nil => intro init; rfl
  | cons a l ih =>
    intro init
    cases hp : p a <;> simp [List.filter_cons, hp, ih]

/-- Dict assignment with a fresh key appends. -/
theorem dictInsert_fresh (l : List (String × String)) (k v : String)
    (h : k ∉ l.map Prod.fst) : dictInsert l k v = l ++ [(k, v)] := by
  unfold dictInsert
  have hany : l.any (fun p => p.1 == k) = false := by
    rw [List.any_eq_false]
    intro p hp
    simp only [beq_iff_eq]
    intro hc
    apply h
    rw [← hc]
    exact List.mem_map_of_mem Prod.fst hp
  simp [hany]

/-- A fold of dict assignments over fresh, pairwise-distinct keys is
plain concatenation. -/
theorem foldl_dictInsert_append :
    ∀ (ps acc : List (String × String)), ((acc ++ ps).map Prod.fst).Nodup →
      ps.foldl (fun a p => dictInsert a p.1 p.2) acc = acc ++ ps := by
  intro ps
  induction ps with
  | nil =>
    intro acc _
    simp
  | cons p ps ih =>
    intro acc hnodup
    simp only [List.foldl_cons]
    have hfresh : p.1 ∉ acc.map Prod.fst := by
      rw [List.map_append, List.nodup_append] at hnodup
      intro hc
      exact hnodup.2.2 hc (by simp)
    rw [dictInsert_fresh acc p.1 p.2 hfresh]
    have hpair : acc ++ [(p.1, p.2)] = acc ++ [p] := by simp
    rw [hpair, ih (acc ++ [p]) (by rw [List.append_assoc]; exact hnodup)]
    simp

/-- Under distinct names, find? by a member's name returns that
member. -/
theorem find?_dimension_name (d : SearchDimension) :
    ∀ (l : List SearchDimension), (l.map (fun x => x.name)).Nodup → d ∈ l →
      l.find? (fun x => x.name == d.name) = some d := by
  intro l
  induction l with
  | nil =>
    intro _ h
    simp at h
  | cons x l ih =>
    intro hnodup hmem
    simp only [List.map_cons, List.nodup_cons] at hnodup
    by_cases hx : (x.name == d.name) = true
    · simp only [List.find?, hx]
      rcases List.mem_cons.mp hmem with h1 | h1
      · rw [h1]
      · exfalso
        apply hnodup.1
        rw [beq_iff_eq] at hx
        rw [hx]
        exact List.mem_map_of_mem (fun y => y.name) h1
    · have hx' : (x.name == d.name) = false := by simpa using hx
      simp only [List.find?, hx']
      rcases List.mem_cons.mp hmem with h1 | h1
      · exfalso
        apply hx
        rw [h1]
        simp
      · exact ih hnodup.2 h1


/-- The key list of the flat targeted dict, at the level of dimension
names. -/
theorem specTargetedDimensionsUsed_keys_eq (state : QueryGeneratorState)
    (target_dim : SearchDimension) :
    (specTargetedDimensionsUsed state target_dim).map Prod.fst
      = ((state.dimensions.filter (fun d => d.is_primary)).map (fun d => d.name))
        ++ target_dim.name
          :: (((state.dimensions.filter
              (fun d => !d.is_primary && d.name != target_dim.name)).take 2).map
              (fun d => d.name)) := by
  unfold specTargetedDimensionsUsed
  simp [List.map_map, Function.comp_def]

/-- Under a catalog with distinct names, the flat targeted dict has
pairwise-distinct keys. -/
theorem specTargetedDimensionsUsed_keys (state : QueryGeneratorState)
    (target_dim : SearchDimension)
    (hmem : target_dim ∈ state.dimensions) (hnp : target_dim.is_primary = false)
    (hnodup : (state.dimensions.map (fun d => d.name)).Nodup) :
    ((specTargetedDimensionsUsed state target_dim).map Prod.fst).Nodup := by
  have inj := List.inj_on_of_nodup_map hnodup
  have hOprop : ∀ o ∈ (state.dimensions.filter
      (fun d => !d.is_primary && d.name != target_dim.name)).take 2,
      o ∈ state.dimensions ∧ o.is_primary = false ∧ o.name ≠ target_dim.name := by
    intro o ho
    have ho' := List.mem_of_mem_take ho
    have hof := List.mem_filter.mp ho'
    have hcond := hof.2
    simp only [Bool.and_eq_true, Bool.not_eq_true', bne_iff_ne, ne_eq] at hcond
    exact ⟨hof.1, hcond.1, hcond.2⟩
  rw [specTargetedDimensionsUsed_keys_eq, List.nodup_append]
  refine ⟨?_, ?_, ?_⟩
  · exact ((List.filter_sublist state.dimensions).map (fun d => d.name)).nodup hnodup
  · rw [List.nodup_cons]
    constructor
    · intro hc
      rcases List.mem_map.mp hc with ⟨o, ho, hname⟩
      exact (hOprop o ho).2.2 hname
    · exact (((List.take_sublist 2 (state.dimensions.filter
          (fun d => !d.is_primary && d.name != target_dim.name))).trans
        (List.filter_sublist state.dimensions)).map
        (fun d => d.name)).nodup hnodup
  · intro a ha hb
    rcases List.mem_map.mp ha with ⟨p, hp, hpa⟩
    have hpf := List.mem_filter.mp hp
    have hpprim : p.is_primary = true := by simpa using hpf.2
    rcases List.mem_cons.mp hb with hb1 | hb2
    · have hpt : p = target_dim := inj hpf.1 hmem (by rw [hpa, hb1])
      rw [hpt, hnp] at hpprim
      exact Bool.noConfusion hpprim
    · rcases List.mem_map.mp hb2 with ⟨o, ho, hob⟩
      obtain ⟨homem, hoprim, _⟩ := hOprop o ho
      have hop : o = p := inj homem hpf.1 (by rw [hob, hpa])
      rw [hop, hpprim] at hoprim
      exact Bool.noConfusion hoprim

/-- Keys of a name-keyed pair list are the names. -/
theorem map_fst_pairs (val : SearchDimension → String) (l : List SearchDimension) :
    (l.map (fun d => (d.name, val d))).map Prod.fst = l.map (fun d => d.name) := by
  simp [List.map_map, Function.comp_def]

/-- A fold of per-dimension dict assignments over fresh, distinct names
is concatenation of the corresponding pairs. -/
theorem foldl_dictInsert_over_dims (val : SearchDimension → String) :
    ∀ (l : List SearchDimension) (acc : List (String × String)),
      ((acc ++ l.map (fun d => (d.name, val d))).map Prod.fst).Nodup →
      l.foldl (fun a d => dictInsert a d.name (val d)) acc
        = acc ++ l.map (fun d => (d.name, val d)) := by
  intro l
  induction l with
  | nil =>
    intro acc _
    simp
  | cons d l ih =>
    intro acc hnodup
    simp only [List.foldl_cons]
    have hfresh : d.name ∉ acc.map Prod.fst := by
      rw [List.map_append, List.nodup_append] at hnodup
      intro hc
      exact hnodup.2.2 hc (by simp)
    rw [dictInsert_fresh acc d.name (val d) hfresh,
      ih (acc ++ [(d.name, val d)]) (by rw [List.append_assoc]; exact hnodup)]
    simp

/-- The targeted construction, under a catalog with distinct names,
equals the guarded flat construction the spec describes, with
priority 10 minus the number of dimensions used. -/
theorem create_targeted_eq_spec (state : QueryGeneratorState)
    (target_dim : SearchDimension)
    (hmem : target_dim ∈ state.dimensions) (hnp : target_dim.is_primary = false)
    (hnodup : (state.dimensions.map (fun d => d.name)).Nodup) :
    _create_targeted_query state target_dim.name
      = (if (specTargetedDimensionsUsed state target_dim).toFinset
            ∈ state.used_combinations
         then (none, state)
         else (some { query := QueryBuilder.build_query
                        (specTargetedDimensionsUsed state target_dim),
                      dimensions := specTargetedDimensionsUsed state target_dim,
                      priority := 10
                        - ((specTargetedDimensionsUsed state target_dim).length : Int) },
               state.with_used_combination
                 (specTargetedDimensionsUsed state target_dim).toFinset)) := by
  have hfind := find?_dimension_name target_dim state.dimensions hnodup hmem
  have hkeysNodup := specTargetedDimensionsUsed_keys state target_dim hmem hnp hnodup
  rw [specTargetedDimensionsUsed_keys_eq, List.nodup_append] at hkeysNodup
  obtain ⟨hPk, hTOk, hdisj⟩ := hkeysNodup
  have hP : primaryDimensionsUsed state.dimensions
      = (state.dimensions.filter (fun d => d.is_primary)).map
          (fun d => (d.name, d.values.headD "")) := by
    unfold primaryDimensionsUsed
    rw [foldl_ite_filter]
    have h0 := foldl_dictInsert_over_dims (fun d => d.values.headD "")
      (state.dimensions.filter (fun d => d.is_primary)) []
      (by
        simp only [List.nil_append, map_fst_pairs]
        exact hPk)
    simpa using h0
  have htP : target_dim.name
      ∉ ((state.dimensions.filter (fun d => d.is_primary)).map
          (fun d => (d.name, d.values.headD ""))).map Prod.fst := by
    rw [map_fst_pairs]
    intro hc
    exact hdisj hc (List.mem_cons_self _ _)
  have hT : dictInsert (primaryDimensionsUsed state.dimensions) target_dim.name
        (QueryBuilder.find_least_used_value state.coverage_stats target_dim.name
          target_dim.values)
      = (state.dimensions.filter (fun d => d.is_primary)).map
          (fun d => (d.name, d.values.headD ""))
        ++ [(target_dim.name,
             QueryBuilder.find_least_used_value state.coverage_stats target_dim.name
               target_dim.values)] := by
    rw [hP]
    exact dictInsert_fresh _ _ _ htP
  have hdu : List.foldl
      (fun acc d => dictInsert acc d.name
        (QueryBuilder.find_least_used_value state.coverage_stats d.name d.values))
      (dictInsert (primaryDimensionsUsed state.dimensions) target_dim.name
        (QueryBuilder.find_least_used_value state.coverage_stats target_dim.name
          target_dim.values))
      ((state.dimensions.filter
        (fun d => !d.is_primary && d.name != target_dim.name)).take 2)
      = specTargetedDimensionsUsed state target_dim := by
    rw [hT]
    have h0 := foldl_dictInsert_over_dims
      (fun d => QueryBuilder.find_least_used_value state.coverage_stats d.name d.values)
      ((state.dimensions.filter
        (fun d => !d.is_primary && d.name != target_dim.name)).take 2)
      (((state.dimensions.filter (fun d => d.is_primary)).map
          (fun d => (d.name, d.values.headD "")))
        ++ [(target_dim.name,
             QueryBuilder.find_least_used_value state.coverage_stats target_dim.name
               target_dim.values)])
      (by
        rw [List.map_append, List.map_append, map_fst_pairs, map_fst_pairs,
          List.append_assoc]
        rw [List.nodup_append]
        refine ⟨hPk, ?_, ?_⟩
        · simpa using hTOk
        · intro a ha hb
          apply hdisj ha
          simpa using hb)
    rw [h0]
    unfold specTargetedDimensionsUsed
    simp
  simp only [_create_targeted_query, hfind]
  rw [hdu]

/-- C2: a single generation attempt orders its target candidates by
ascending coverage ratio with ties kept in catalog order (the candidate
list is a permutation of the per-dimension ratio list, key-sorted, and
filter-stable on every key class); the targeted construction for a
target builds exactly the spec's flat dict (primary fixed values, the
target's least-used value, up to two further non-primary non-target
dimensions in catalog order with their least-used values) guarded by
the used-combination check, with priority 10 minus the number of
dimensions used; a candidate whose key is used is skipped in favour of
the next, and the attempt falls back to random construction only when
every sorted candidate fails. -/
theorem claim_C2_targeted_algorithm (state : QueryGeneratorState) (rng : Rng)
    (target_dim : SearchDimension) (t : String) (ts : List String)
    (q : QueryStrategy) (st' : QueryGeneratorState)
    (q2 : QueryStrategy) (st2 : QueryGeneratorState) :
    (stableSortBy (fun x => x.2)
      (QueryBuilder.calculate_dimension_coverage state.coverage_stats
        state.dimensions)).Perm
      (QueryBuilder.calculate_dimension_coverage state.coverage_stats state.dimensions)
    ∧ (stableSortBy (fun x => x.2)
        (QueryBuilder.calculate_dimension_coverage state.coverage_stats
          state.dimensions)).Pairwise (fun a b => a.2 ≤ b.2)
    ∧ (∀ r : ℚ,
        (stableSortBy (fun x => x.2)
          (QueryBuilder.calculate_dimension_coverage state.coverage_stats
            state.dimensions)).filter (fun x => decide (x.2 = r))
          = (QueryBuilder.calculate_dimension_coverage state.coverage_stats
              state.dimensions).filter (fun x => decide (x.2 = r)))
    ∧ (target_dim ∈ state.dimensions → target_dim.is_primary = false →
        (state.dimensions.map (fun d => d.name)).Nodup →
        _create_targeted_query state target_dim.name
          = (if (specTargetedDimensionsUsed state target_dim).toFinset
                ∈ state.used_combinations
             then (none, state)
             else (some { query := QueryBuilder.build_query
                            (specTargetedDimensionsUsed state target_dim),
                          dimensions := specTargetedDimensionsUsed state target_dim,
                          priority := 10 - ((specTargetedDimensionsUsed state
                            target_dim).length : Int) },
                   state.with_used_combination
                     (specTargetedDimensionsUsed state target_dim).toFinset)))
    ∧ ((_create_targeted_query state t).1 = none →
        tryTargetedQueries state (t :: ts) = tryTargetedQueries state ts)
    ∧ (_create_targeted_query state t = (some q, st') →
        tryTargetedQueries state (t :: ts) = some (q, st'))
    ∧ (tryTargetedQueries state
          ((stableSortBy (fun x => x.2)
            (QueryBuilder.calculate_dimension_coverage state.coverage_stats
              state.dimensions)).map (fun x => x.1)) = none →
        _generate_single_query state rng = _create_random_query state rng)
    ∧ (tryTargetedQueries state
          ((stableSortBy (fun x => x.2)
            (QueryBuilder.calculate_dimension_coverage state.coverage_stats
              state.dimensions)).map (fun x => x.1)) = some (q2, st2) →
        _generate_single_query state rng = (some q2, st2, rng)) := by
  refine ⟨stableSortBy_perm _ _, stableSortBy_sorted _ _,
    fun r => stableSortBy_filter _ _ r, ?_, ?_, ?_, ?_, ?_⟩
  · intro hmem hnp hnodup
    exact create_targeted_eq_spec state target_dim hmem hnp hnodup
  · intro h
    rcases ht : _create_targeted_query state t with ⟨oq, st0⟩
    rw [ht] at h
    have hoq : oq = none := h
    subst hoq
    simp [tryTargetedQueries, ht]
  · intro h
    simp [tryTargetedQueries, h]
  · intro h
    simp only [_generate_single_query, h]
  · intro h
    simp only [_generate_single_query, h]

/-- Witness for C2: the targeted construction on a three-dimension
catalog, the skip of a used candidate, the hit of a fresh candidate,
the random fallback on an exhausted empty catalog, and the dispatch of
a successful targeted pass. -/
theorem claim_C2_targeted_algorithm_witness :
    _create_targeted_query
        ⟨[⟨"base", ["is:public"], true⟩, ⟨"stars", ["s0", "s1"], false⟩,
          ⟨"size", ["z0"], false⟩], ∅,
         ⟨[("base", [("is:public", 0)]), ("stars", [("s0", 0), ("s1", 0)]),
           ("size", [("z0", 0)])]⟩⟩ "stars"
      = (if (specTargetedDimensionsUsed
              ⟨[⟨"base", ["is:public"], true⟩, ⟨"stars", ["s0", "s1"], false⟩,
                ⟨"size", ["z0"], false⟩], ∅,
               ⟨[("base", [("is:public", 0)]), ("stars", [("s0", 0), ("s1", 0)]),
                 ("size", [("z0", 0)])]⟩⟩
              ⟨"stars", ["s0", "s1"], false⟩).toFinset
            ∈ (⟨[⟨"base", ["is:public"], true⟩, ⟨"stars", ["s0", "s1"], false⟩,
                 ⟨"size", ["z0"], false⟩], ∅,
                ⟨[("base", [("is:public", 0)]), ("stars", [("s0", 0), ("s1", 0)]),
                  ("size", [("z0", 0)])]⟩⟩ : QueryGeneratorState).used_combinations
         then (none,
               ⟨[⟨"base", ["is:public"], true⟩, ⟨"stars", ["s0", "s1"], false⟩,
                 ⟨"size", ["z0"], false⟩], ∅,
                ⟨[("base", [("is:public", 0)]), ("stars", [("s0", 0), ("s1", 0)]),
                  ("size", [("z0", 0)])]⟩⟩)
         else (some { query := QueryBuilder.build_query
                        (specTargetedDimensionsUsed
                          ⟨[⟨"base", ["is:public"], true⟩,
                            ⟨"stars", ["s0", "s1"], false⟩,
                            ⟨"size", ["z0"], false⟩], ∅,
                           ⟨[("base", [("is:public", 0)]),
                             ("stars", [("s0", 0), ("s1", 0)]),
                             ("size", [("z0", 0)])]⟩⟩
                          ⟨"stars", ["s0", "s1"], false⟩),
                      dimensions := specTargetedDimensionsUsed
                        ⟨[⟨"base", ["is:public"], true⟩,
                          ⟨"stars", ["s0", "s1"], false⟩,
                          ⟨"size", ["z0"], false⟩], ∅,
                         ⟨[("base", [("is:public", 0)]),
                           ("stars", [("s0", 0), ("s1", 0)]),
                           ("size", [("z0", 0)])]⟩⟩
                        ⟨"stars", ["s0", "s1"], false⟩,
                      priority := 10 - ((specTargetedDimensionsUsed
                        ⟨[⟨"base", ["is:public"], true⟩,
                          ⟨"stars", ["s0", "s1"], false⟩,
                          ⟨"size", ["z0"], false⟩], ∅,
                         ⟨[("base", [("is:public", 0)]),
                           ("stars", [("s0", 0), ("s1", 0)]),
                           ("size", [("z0", 0)])]⟩⟩
                        ⟨"stars", ["s0", "s1"], false⟩).length : Int) },
               QueryGeneratorState.with_used_combination
                 ⟨[⟨"base", ["is:public"], true⟩, ⟨"stars", ["s0", "s1"], false⟩,
                   ⟨"size", ["z0"], false⟩], ∅,
                  ⟨[("base", [("is:public", 0)]), ("stars", [("s0", 0), ("s1", 0)]),
                    ("size", [("z0", 0)])]⟩⟩
                 (specTargetedDimensionsUsed
                   ⟨[⟨"base", ["is:public"], true⟩, ⟨"stars", ["s0", "s1"], false⟩,
                     ⟨"size", ["z0"], false⟩], ∅,
                    ⟨[("base", [("is:public", 0)]), ("stars", [("s0", 0), ("s1", 0)]),
                      ("size", [("z0", 0)])]⟩⟩
                   ⟨"stars", ["s0", "s1"], false⟩).toFinset))
    ∧ tryTargetedQueries
        ⟨[⟨"base", ["is:public"], true⟩, ⟨"stars", ["s0", "s1"], false⟩,
          ⟨"size", ["z0"], false⟩],
         {{("base", "is:public"), ("stars", "s0"), ("size", "z0")}},
         ⟨[("base", [("is:public", 0)]), ("stars", [("s0", 0), ("s1", 0)]),
           ("size", [("z0", 0)])]⟩⟩ ("stars" :: ["size"])
      = tryTargetedQueries
        ⟨[⟨"base", ["is:public"], true⟩, ⟨"stars", ["s0", "s1"], false⟩,
          ⟨"size", ["z0"], false⟩],
         {{("base", "is:public"), ("stars", "s0"), ("size", "z0")}},
         ⟨[("base", [("is:public", 0)]), ("stars", [("s0", 0), ("s1", 0)]),
           ("size", [("z0", 0)])]⟩⟩ ["size"]
    ∧ tryTargetedQueries
        ⟨[⟨"base", ["is:public"], true⟩, ⟨"stars", ["s0", "s1"], false⟩,
          ⟨"size", ["z0"], false⟩], ∅,
         ⟨[("base", [("is:public", 0)]), ("stars", [("s0", 0), ("s1", 0)]),
           ("size", [("z0", 0)])]⟩⟩ ("stars" :: [])
      = some (⟨"is:public s0 z0",
          [("base", "is:public"), ("stars", "s0"), ("size", "z0")], 7⟩,
         ⟨[⟨"base", ["is:public"], true⟩, ⟨"stars", ["s0", "s1"], false⟩,
           ⟨"size", ["z0"], false⟩],
          {{("base", "is:public"), ("stars", "s0"), ("size", "z0")}},
          ⟨[("base", [("is:public", 0)]), ("stars", [("s0", 0), ("s1", 0)]),
            ("size", [("z0", 0)])]⟩⟩)
    ∧ _generate_single_query ⟨[], {(∅ : Finset (String × String))}, ⟨[]⟩⟩
        ⟨fun _ => 0, 0⟩
      = _create_random_query ⟨[], {(∅ : Finset (String × String))}, ⟨[]⟩⟩
        ⟨fun _ => 0, 0⟩
    ∧ _generate_single_query
        ⟨[⟨"base", ["is:public"], true⟩, ⟨"stars", ["s0", "s1"], false⟩], ∅,
         ⟨[("base", [("is:public", 0)]), ("stars", [("s0", 0), ("s1", 0)])]⟩⟩
        ⟨fun _ => 0, 0⟩
      = (some ⟨"is:public s0", [("base", "is:public"), ("stars", "s0")], 8⟩,
         ⟨[⟨"base", ["is:public"], true⟩, ⟨"stars", ["s0", "s1"], false⟩],
          {{("base", "is:public"), ("stars", "s0")}},
          ⟨[("base", [("is:public", 0)]), ("stars", [("s0", 0), ("s1", 0)])]⟩⟩,
         ⟨fun _ => 0, 0⟩) := by
  have hA := (claim_C2_targeted_algorithm
    ⟨[⟨"base", ["is:public"], true⟩, ⟨"stars", ["s0", "s1"], false⟩,
      ⟨"size", ["z0"], false⟩], ∅,
     ⟨[("base", [("is:public", 0)]), ("stars", [("s0", 0), ("s1", 0)]),
       ("size", [("z0", 0)])]⟩⟩ ⟨fun _ => 0, 0⟩
    ⟨"stars", ["s0", "s1"], false⟩ "" [] ⟨"", [], 0⟩
    ⟨[], ∅, ⟨[]⟩⟩ ⟨"", [], 0⟩ ⟨[], ∅, ⟨[]⟩⟩).2.2.2.1
    (by decide) (by decide) (by decide)
  have hB := (claim_C2_targeted_algorithm
    ⟨[⟨"base", ["is:public"], true⟩, ⟨"stars", ["s0", "s1"], false⟩,
      ⟨"size", ["z0"], false⟩],
     {{("base", "is:public"), ("stars", "s0"), ("size", "z0")}},
     ⟨[("base", [("is:public", 0)]), ("stars", [("s0", 0), ("s1", 0)]),
       ("size", [("z0", 0)])]⟩⟩ ⟨fun _ => 0, 0⟩
    ⟨"", [], false⟩ "stars" ["size"] ⟨"", [], 0⟩
    ⟨[], ∅, ⟨[]⟩⟩ ⟨"", [], 0⟩ ⟨[], ∅, ⟨[]⟩⟩).2.2.2.2.1 (by decide)
  have hC := (claim_C2_targeted_algorithm
    ⟨[⟨"base", ["is:public"], true⟩, ⟨"stars", ["s0", "s1"], false⟩,
      ⟨"size", ["z0"], false⟩], ∅,
     ⟨[("base", [("is:public", 0)]), ("stars", [("s0", 0), ("s1", 0)]),
       ("size", [("z0", 0)])]⟩⟩ ⟨fun _ => 0, 0⟩
    ⟨"", [], false⟩ "stars" []
    ⟨"is:public s0 z0",
      [("base", "is:public"), ("stars", "s0"), ("size", "z0")], 7⟩
    ⟨[⟨"base", ["is:public"], true⟩, ⟨"stars", ["s0", "s1"], false⟩,
      ⟨"size", ["z0"], false⟩],
     {{("base", "is:public"), ("stars", "s0"), ("size", "z0")}},
     ⟨[("base", [("is:public", 0)]), ("stars", [("s0", 0), ("s1", 0)]),
       ("size", [("z0", 0)])]⟩⟩ ⟨"", [], 0⟩ ⟨[], ∅, ⟨[]⟩⟩).2.2.2.2.2.1 (by decide)
  have hD := (claim_C2_targeted_algorithm
    ⟨[], {(∅ : Finset (String × String))}, ⟨[]⟩⟩ ⟨fun _ => 0, 0⟩
    ⟨"", [], false⟩ "" [] ⟨"", [], 0⟩
    ⟨[], ∅, ⟨[]⟩⟩ ⟨"", [], 0⟩ ⟨[], ∅, ⟨[]⟩⟩).2.2.2.2.2.2.1 (by decide)
  have hE := (claim_C2_targeted_algorithm
    ⟨[⟨"base", ["is:public"], true⟩, ⟨"stars", ["s0", "s1"], false⟩], ∅,
     ⟨[("base", [("is:public", 0)]), ("stars", [("s0", 0), ("s1", 0)])]⟩⟩
    ⟨fun _ => 0, 0⟩ ⟨"", [], false⟩ "" [] ⟨"", [], 0⟩ ⟨[], ∅, ⟨[]⟩⟩
    ⟨"is:public s0", [("base", "is:public"), ("stars", "s0")], 8⟩
    ⟨[⟨"base", ["is:public"], true⟩, ⟨"stars", ["s0", "s1"], false⟩],
     {{("base", "is:public"), ("stars", "s0")}},
     ⟨[("base", [("is:public", 0)]), ("stars", [("s0", 0), ("s1", 0)])]⟩⟩
    ).2.2.2.2.2.2.2 (by decide)
  exact ⟨hA, hB, hC, hD, hE⟩
